import Mathlib

/-!
Verification of the `bonk` detection-only 2D collision engine.

This file gives a shallow embedding of the engine's data model and
operations (src/types.rs, src/narrowphase.rs, src/world.rs) and proves
properties of the embedding.

Modelling conventions:
* `f32` values are modelled as exact rationals (`ℚ`).  Float literals in
  the source (`1e-12`, `1e-5`, `1e-4`, `1e-6`) are modelled as the exact
  decimal rationals they denote; `f32::EPSILON` is exactly `2⁻²³`.
* `f32::sqrt` is modelled by `ratSqrt`, a computable rational
  under-approximation of the square root (exact on perfect squares and
  precise to roughly `2⁻²³` otherwise, mirroring single precision).
* `f32::INFINITY` (used as a sentinel for "no boundary in this axis" in
  the DDA traversals) is modelled by `Option ℚ` with `none` standing for
  `+∞`.
* Bounded loops (`for _ in 0..10_000`) are modelled by structural
  recursion on a fuel argument equal to the source's iteration cap.
* Rust `HashMap` / `HashSet` are modelled by association lists / lists:
  only membership is observable for the dedup sets, while for the
  broadphase grid the list order makes the (unspecified) iteration
  order of `HashMap::values` an explicit parameter.
* `u32` quantities that the source only compares and never overflows are
  modelled as `ℕ`/`ℤ`; where `u32` subtraction can underflow
  (`update_tiles`), the subtraction is modelled explicitly and the
  panic is modelled as `none`.
-/

/-- 2D vector over ℚ, modelling `glam::Vec2`. -/
structure Vec2 where
  x : ℚ
  y : ℚ
deriving DecidableEq

instance : Add Vec2 := ⟨fun a b => ⟨a.x + b.x, a.y + b.y⟩⟩

instance : Sub Vec2 := ⟨fun a b => ⟨a.x - b.x, a.y - b.y⟩⟩

instance : Neg Vec2 := ⟨fun a => ⟨-a.x, -a.y⟩⟩

/-- Scalar multiplication `v * s` (glam's `Vec2 * f32`). -/
def Vec2.smul (v : Vec2) (s : ℚ) : Vec2 := ⟨v.x * s, v.y * s⟩

/-- `Vec2::ZERO`. -/
def Vec2.zero : Vec2 := ⟨0, 0⟩

/-- `Vec2::splat`. -/
def Vec2.splat (s : ℚ) : Vec2 := ⟨s, s⟩

/-- `Vec2::dot`. -/
def Vec2.dot (a b : Vec2) : ℚ := a.x * b.x + a.y * b.y

/-- `Vec2::length_squared`. -/
def Vec2.lengthSquared (v : Vec2) : ℚ := v.x * v.x + v.y * v.y

/-- Componentwise min (`Vec2::min`). -/
def Vec2.vmin (a b : Vec2) : Vec2 := ⟨min a.x b.x, min a.y b.y⟩

/-- Componentwise max (`Vec2::max`). -/
def Vec2.vmax (a b : Vec2) : Vec2 := ⟨max a.x b.x, max a.y b.y⟩

/-- Fuel-driven binary search for the integer square root: returns the
largest `s` with `s * s ≤ n` provided the fuel suffices; in all cases the
result satisfies `s * s ≤ n`. -/
def natSqrtGo (n : ℕ) : ℕ → ℕ → ℕ → ℕ
  | 0, lo, _ => lo
  | fuel + 1, lo, hi =>
    if hi ≤ lo + 1 then lo
    else
      let mid := (lo + hi) / 2
      if mid * mid ≤ n then natSqrtGo n fuel mid hi else natSqrtGo n fuel lo mid

/-- Integer square root (under-approximating), computable by the kernel. -/
def natSqrtBS (n : ℕ) : ℕ := natSqrtGo n 200 0 (n + 1)

/-- Rational square root modelling `f32::sqrt`: an under-approximation
that is exact on perfect squares and has absolute error on the order of
`2⁻²³` (single-precision scale) otherwise. -/
def ratSqrt (q : ℚ) : ℚ :=
  if q ≤ 0 then 0
  else ((natSqrtBS (q.num.toNat * q.den * 4 ^ 23) : ℚ)) / ((q.den : ℚ) * 2 ^ 23)

/-- `Vec2::length`. -/
def Vec2.length (v : Vec2) : ℚ := ratSqrt v.lengthSquared

/-- `Vec2::normalize_or_zero` (zero when the computed length is zero). -/
def Vec2.normalizeOrZero (v : Vec2) : Vec2 :=
  let len := v.length
  if len = 0 then Vec2.zero else ⟨v.x / len, v.y / len⟩

/-- `f32::EPSILON = 2⁻²³`. -/
def eps32 : ℚ := 1 / 2 ^ 23

-- ---------------------------------------------------------------------------
-- src/types.rs
-- ---------------------------------------------------------------------------

/-- `ColKey`. -/
abbrev ColKey := ℕ

/-- `LayerMask` (the three `u32` bitmasks). -/
structure LayerMask where
  layer : ℕ
  collides_with : ℕ
  exclude : ℕ
deriving DecidableEq

/-- `LayerMask::simple`. -/
def LayerMask.simple (layer collides_with : ℕ) : LayerMask :=
  ⟨layer, collides_with, 0⟩

/-- `LayerMask::allows`. -/
def LayerMask.allows (self other : LayerMask) : Bool :=
  (Nat.land self.collides_with other.layer ≠ 0) &&
    ¬(Nat.land self.exclude other.layer ≠ 0)

/-- `ColliderKind`. -/
inductive ColliderKind where
  | aabb (half_extents : Vec2)
  | circle (radius : ℚ)
  | point
deriving DecidableEq

/-- `ColliderDesc`. -/
structure ColliderDesc where
  kind : ColliderKind
  center : Vec2
  mask : LayerMask
  user_key : Option ColKey
deriving DecidableEq

/-- `Motion`. -/
structure Motion where
  vel : Vec2
deriving DecidableEq

/-- `ResolutionHint`. -/
structure ResolutionHint where
  safe_pos : Option Vec2
  start_embedded : Bool
  fully_embedded : Bool
deriving DecidableEq

/-- `ResolutionHint::default()`. -/
def ResolutionHint.default : ResolutionHint := ⟨none, false, false⟩

/-- `Overlap`. -/
structure Overlap where
  normal : Vec2
  depth : ℚ
  contact : Vec2
  hint : ResolutionHint
deriving DecidableEq

/-- `SweepHit`. -/
structure SweepHit where
  toi : ℚ
  normal : Vec2
  contact : Vec2
  hint : ResolutionHint
deriving DecidableEq

/-- `EventKind`. -/
inductive EventKind where
  | overlap
  | sweep
deriving DecidableEq

/-- `FrameId` (dense `u32` index). -/
abbrev FrameId := ℕ

/-- `TileMapRef` (dense `u32` slot index). -/
abbrev TileMapRef := ℕ

/-- `TileRef`. -/
structure TileRef where
  map : TileMapRef
  cellX : ℕ
  cellY : ℕ
deriving DecidableEq

/-- `BodyRef`. -/
inductive BodyRef where
  | collider (id : FrameId)
  | tile (t : TileRef)
deriving DecidableEq

/-- `Event`. -/
structure Event where
  kind : EventKind
  a : BodyRef
  b : BodyRef
  a_key : Option ColKey
  b_key : Option ColKey
  overlap : Option Overlap
  sweep : Option SweepHit
deriving DecidableEq

/-- `WorldConfig`. -/
structure WorldConfig where
  cell_size : ℚ
  dt : ℚ
  tighten_swept_aabb : Bool
  enable_overlap_events : Bool
  enable_sweep_events : Bool
  max_events : ℕ
  tile_eps : ℚ
  require_mutual_consent : Bool
deriving DecidableEq

/-- `TileMap` (world-internal storage; `solids` row-major, nonzero = solid). -/
structure TileMap where
  origin : Vec2
  cell : ℚ
  width : ℕ
  height : ℕ
  solids : List ℕ
  mask : LayerMask
  user_key : Option ColKey
deriving DecidableEq

/-- `Entry` (world-internal per-frame collider). -/
structure Entry where
  desc : ColliderDesc
  motion : Motion
deriving DecidableEq

-- ---------------------------------------------------------------------------
-- src/narrowphase.rs
-- ---------------------------------------------------------------------------

/-- Per-axis slab update for `ray_aabb`/`line_segment_aabb`: given the
running `(tmin, tmax, n_enter)` and this axis's data, returns the updated
state or `none` for a miss.  `axisIsX` selects which normal component is
set. -/
def slabAxis (axisIsX : Bool) (o d lo hi : ℚ) (tmin tmax : ℚ) (nEnter : Vec2) :
    Option (ℚ × ℚ × Vec2) :=
  if |d| < eps32 then
    if o < lo ∨ o > hi then none else some (tmin, tmax, nEnter)
  else
    let inv := 1 / d
    let t1 := (lo - o) * inv
    let t2 := (hi - o) * inv
    let n : ℚ := if t1 > t2 then 1 else -1
    let tlo := if t1 > t2 then t2 else t1
    let thi := if t1 > t2 then t1 else t2
    let tmin2 := if tlo > tmin then tlo else tmin
    let nEnter2 :=
      if tlo > tmin then (if axisIsX then (⟨n, 0⟩ : Vec2) else ⟨0, n⟩) else nEnter
    let tmax2 := if thi < tmax then thi else tmax
    if tmin2 > tmax2 then none else some (tmin2, tmax2, nEnter2)

/-- `Narrowphase::ray_aabb` (slab method with near-face normal tracking).
The initial `tmin = -∞ / tmax = +∞` of the source are modelled by
sentinel bounds below every / above every slab time actually compared;
since each comparison is against finite slab times, any rational strictly
smaller (larger) than all of them behaves identically, and we carry the
"still infinite" flag through the first slab explicitly. -/
def rayAabb (origin dir aabbMin aabbMax : Vec2) : Option SweepHit :=
  -- X axis starting from (-∞, +∞): the first non-parallel axis always
  -- installs its own (tlo, thi) and normal, so we special-case it.
  let step1 : Option (Option (ℚ × ℚ × Vec2)) :=
    -- `none` inner state = still (-∞, +∞, ZERO) after a parallel X axis.
    if |dir.x| < eps32 then
      if origin.x < aabbMin.x ∨ origin.x > aabbMax.x then none else some none
    else
      let inv := 1 / dir.x
      let t1 := (aabbMin.x - origin.x) * inv
      let t2 := (aabbMax.x - origin.x) * inv
      let n : ℚ := if t1 > t2 then 1 else -1
      let tlo := if t1 > t2 then t2 else t1
      let thi := if t1 > t2 then t1 else t2
      if tlo > thi then none else some (some (tlo, thi, (⟨n, 0⟩ : Vec2)))
  match step1 with
  | none => none
  | some st1 =>
    let step2 : Option (Option (ℚ × ℚ × Vec2)) :=
      if |dir.y| < eps32 then
        if origin.y < aabbMin.y ∨ origin.y > aabbMax.y then none else some st1
      else
        let inv := 1 / dir.y
        let t1 := (aabbMin.y - origin.y) * inv
        let t2 := (aabbMax.y - origin.y) * inv
        let n : ℚ := if t1 > t2 then 1 else -1
        let tlo := if t1 > t2 then t2 else t1
        let thi := if t1 > t2 then t1 else t2
        match st1 with
        | none =>
          if tlo > thi then none else some (some (tlo, thi, (⟨0, n⟩ : Vec2)))
        | some (tmin, tmax, nEnter) =>
          let tmin2 := if tlo > tmin then tlo else tmin
          let nEnter2 := if tlo > tmin then (⟨0, n⟩ : Vec2) else nEnter
          let tmax2 := if thi < tmax then thi else tmax
          if tmin2 > tmax2 then none else some (some (tmin2, tmax2, nEnter2))
    match step2 with
    | none => none
    | some none =>
      -- both axes parallel and origin inside both slabs: tmin = -∞ < 0
      some ⟨0, Vec2.zero, origin, ResolutionHint.default⟩
    | some (some (tmin, _, nEnter)) =>
      let toi := if tmin < 0 then 0 else tmin
      let contact := origin + dir.smul toi
      let normal := if tmin < 0 then Vec2.zero else nEnter
      some ⟨toi, normal, contact, ResolutionHint.default⟩

/-- `Narrowphase::ray_circle`. -/
def rayCircle (origin dir center : Vec2) (r : ℚ) : Option SweepHit :=
  let m := origin - center
  let a := dir.lengthSquared
  if a = 0 then none
  else
    let b := 2 * m.dot dir
    let c := m.lengthSquared - r * r
    let disc := b * b - 4 * a * c
    if disc < 0 then none
    else
      let sqrtDisc := ratSqrt disc
      let t0 := (-b - sqrtDisc) / (2 * a)
      let t1 := (-b + sqrtDisc) / (2 * a)
      let t := if t0 ≥ 0 then t0 else t1
      if t < 0 then none
      else
        let contact := origin + dir.smul t
        let n := contact - center
        let len := n.length
        let normal := if len > 0 then ⟨n.x / len, n.y / len⟩ else Vec2.zero
        some ⟨t, normal, contact, ResolutionHint.default⟩

/-- `Narrowphase::overlap_aabb_aabb`. -/
def overlapAabbAabb (c0 h0 c1 h1 : Vec2) : Option Overlap :=
  let d := c1 - c0
  let ox := (h0.x + h1.x) - |d.x|
  let oy := (h0.y + h1.y) - |d.y|
  if ox < 0 ∨ oy < 0 then none
  else
    let depth := if ox ≤ oy then max ox 0 else max oy 0
    let normal : Vec2 :=
      if ox ≤ oy then ⟨if d.x ≥ 0 then -1 else 1, 0⟩
      else ⟨0, if d.y ≥ 0 then -1 else 1⟩
    let axisH := if ox ≤ oy then h0.x else h0.y
    let bmin := c1 - h1
    let bmax := c1 + h1
    let contact0 : Vec2 :=
      ⟨max (min c0.x bmax.x) bmin.x, max (min c0.y bmax.y) bmin.y⟩
    let contact := contact0 - normal.smul axisH
    some ⟨normal, depth, contact, ResolutionHint.default⟩

/-- `Narrowphase::overlap_circle_circle`. -/
def overlapCircleCircle (c0 : Vec2) (r0 : ℚ) (c1 : Vec2) (r1 : ℚ) :
    Option Overlap :=
  let delta := c0 - c1
  let dist2 := delta.lengthSquared
  let rsum := r0 + r1
  let rsum2 := rsum * rsum
  if dist2 > rsum2 then none
  else if dist2 = 0 then
    some ⟨Vec2.zero, rsum, c0, ResolutionHint.default⟩
  else
    let dist := ratSqrt dist2
    let normal : Vec2 := ⟨delta.x / dist, delta.y / dist⟩
    let depth := max (rsum - dist) 0
    let contact := c0 - normal.smul r0
    some ⟨normal, depth, contact, ResolutionHint.default⟩

/-- `Narrowphase::overlap_point_aabb`. -/
def overlapPointAabb (p c h : Vec2) : Bool :=
  let mn := c - h
  let mx := c + h
  p.x ≥ mn.x && p.x ≤ mx.x && p.y ≥ mn.y && p.y ≤ mx.y

/-- `Narrowphase::overlap_point_circle`. -/
def overlapPointCircle (p c : Vec2) (r : ℚ) : Bool :=
  (p - c).lengthSquared ≤ r * r

/-- `Narrowphase::sweep_aabb_aabb` (Minkowski-expanded ray cast). -/
def sweepAabbAabb (c0 h0 v0 c1 h1 v1 : Vec2) : Option SweepHit :=
  let vrel := v0 - v1
  if vrel.lengthSquared ≤ eps32 then none
  else
    let expand := h0 + h1
    match rayAabb c0 vrel (c1 - expand) (c1 + expand) with
    | none => none
    | some hit =>
      if hit.toi < 0 ∨ hit.toi > 1 then none
      else
        -- `normal * h0` in glam is the componentwise product
        let centerAtHit := c0 + vrel.smul hit.toi
        some ⟨hit.toi, hit.normal,
          ⟨centerAtHit.x - hit.normal.x * h0.x,
           centerAtHit.y - hit.normal.y * h0.y⟩,
          ResolutionHint.default⟩

/-- `Narrowphase::sweep_circle_aabb`. -/
def sweepCircleAabb (c : Vec2) (r : ℚ) (v boxC boxH boxV : Vec2) :
    Option SweepHit :=
  let vrel := v - boxV
  if vrel.lengthSquared ≤ eps32 then none
  else
    let rvec := Vec2.splat r
    match rayAabb c vrel (boxC - boxH - rvec) (boxC + boxH + rvec) with
    | none => none
    | some hit =>
      if hit.toi < 0 ∨ hit.toi > 1 then none
      else
        let centerAtHit := c + vrel.smul hit.toi
        some ⟨hit.toi, hit.normal, centerAtHit - hit.normal.smul r,
          ResolutionHint.default⟩

/-- `Narrowphase::sweep_circle_circle`. -/
def sweepCircleCircle (c0 : Vec2) (r0 : ℚ) (v0 c1 : Vec2) (r1 : ℚ)
    (v1 : Vec2) : Option SweepHit :=
  let vrel := v0 - v1
  if vrel.lengthSquared ≤ eps32 then none
  else
    match rayCircle c0 vrel c1 (r0 + r1) with
    | none => none
    | some hit =>
      if hit.toi < 0 ∨ hit.toi > 1 then none
      else
        let centerAtHit := c0 + vrel.smul hit.toi
        some ⟨hit.toi, hit.normal, centerAtHit - hit.normal.smul r0,
          ResolutionHint.default⟩

/-- Modelled from the spec: `aabb_tile_pushout` is declared in
`NarrowphaseApi` (src/api.rs) but its implementation is not under `src/`.
Spec §4.1: "compute the minimum-axis push vector out of a single solid
tile, returning `(normal_unit, depth, contact)`", with the overlap normal
convention of `overlap_aabb_aabb` (axis of minimum penetration, pointing
from the tile into the shape). -/
def aabbTilePushout (c he tileMin : Vec2) (cell : ℚ) : Vec2 × ℚ × Vec2 :=
  let tileC := tileMin + Vec2.splat (cell / 2)
  let tileH := Vec2.splat (cell / 2)
  match overlapAabbAabb c he tileC tileH with
  | some o => (o.normal, o.depth, o.contact)
  | none => (Vec2.zero, 0, c)

/-- Modelled from the spec: `circle_tile_pushout` (src/api.rs declaration,
implementation not under `src/`).  Spec §4.1: minimum push vector out of a
single solid tile for a circle, `(normal_unit, depth, contact)`. -/
def circleTilePushout (c : Vec2) (r : ℚ) (tileMin : Vec2) (cell : ℚ) :
    Vec2 × ℚ × Vec2 :=
  let tileC := tileMin + Vec2.splat (cell / 2)
  let tileH := Vec2.splat (cell / 2)
  let closest : Vec2 :=
    ⟨max (min c.x (tileC.x + tileH.x)) (tileC.x - tileH.x),
     max (min c.y (tileC.y + tileH.y)) (tileC.y - tileH.y)⟩
  let dvec := c - closest
  let dist := ratSqrt dvec.lengthSquared
  if dist = 0 then
    match overlapAabbAabb c (Vec2.splat r) tileC tileH with
    | some o => (o.normal, o.depth, o.contact)
    | none => (Vec2.zero, 0, c)
  else
    (⟨dvec.x / dist, dvec.y / dist⟩, max (r - dist) 0, closest)

-- ---------------------------------------------------------------------------
-- src/world.rs : state, grid, tilemap store
-- ---------------------------------------------------------------------------

/-- `1e-12` (dynamic-pair velocity threshold). -/
def dynEps : ℚ := 1 / 10 ^ 12

/-- `1e-5` (cell-size clamp). -/
def cellClampMin : ℚ := 1 / 10 ^ 5

/-- `1e-6` (tile-eps clamp). -/
def tileEpsMin : ℚ := 1 / 10 ^ 6

/-- The broadphase grid: cell coordinate → insertion-ordered entry indices.
The list order of the cells models the (unspecified) iteration order of
the source's `HashMap`. -/
abbrev Grid := List ((ℤ × ℤ) × List ℕ)

/-- The world state (`PhysicsWorld`), without the timing fields. -/
structure World where
  cfg : WorldConfig
  entries : List Entry
  aabbs : List (Vec2 × Vec2)
  grid : Grid
  tilemaps : List TileMap
  events : List Event
deriving DecidableEq

/-- Default entry used to totalise the source's panicking index accesses
(`self.entries[i]`); never reachable from well-formed states. -/
def defaultEntry : Entry :=
  ⟨⟨ColliderKind.point, Vec2.zero, ⟨0, 0, 0⟩, none⟩, ⟨Vec2.zero⟩⟩

/-- `self.entries[i]`. -/
def entryAt (entries : List Entry) (i : ℕ) : Entry := entries.getD i defaultEntry

/-- `self.aabbs[i]`. -/
def aabbAt (aabbs : List (Vec2 × Vec2)) (i : ℕ) : Vec2 × Vec2 :=
  aabbs.getD i (Vec2.zero, Vec2.zero)

/-- `PhysicsWorld::allows_pair`. -/
def allowsPair (cfg : WorldConfig) (a b : LayerMask) : Bool :=
  if cfg.require_mutual_consent then a.allows b && b.allows a
  else a.allows b || b.allows a

/-- `PhysicsWorld::half_extents_of` (by kind). -/
def halfExtentsOfKind : ColliderKind → Vec2
  | ColliderKind.aabb he => he
  | ColliderKind.circle r => Vec2.splat r
  | ColliderKind.point => Vec2.zero

/-- `PhysicsWorld::compute_entry_aabb`. -/
def computeEntryAabb (cfg : WorldConfig) (e : Entry) : Vec2 × Vec2 :=
  let half := halfExtentsOfKind e.desc.kind
  if cfg.tighten_swept_aabb then
    let p0 := e.desc.center
    let p1 := e.desc.center + e.motion.vel.smul cfg.dt
    (p0.vmin p1 - half, p0.vmax p1 + half)
  else
    (e.desc.center - half, e.desc.center + half)

/-- `PhysicsWorld::world_to_cell` (floor indexing). -/
def worldToCell (p : Vec2) (cs : ℚ) : ℤ × ℤ := (⌊p.x / cs⌋, ⌊p.y / cs⌋)

/-- Integer range `lo..=hi` as a list (empty when `hi < lo`). -/
def intRange (lo hi : ℤ) : List ℤ :=
  (List.range (hi + 1 - lo).toNat).map (fun k => lo + Int.ofNat k)

/-- The cell rectangle visited by the nested `for iy … for ix` loops,
in the source's y-outer x-inner order. -/
def cellRect (ix0 ix1 iy0 iy1 : ℤ) : List (ℤ × ℤ) :=
  (intRange iy0 iy1).bind (fun iy => (intRange ix0 ix1).map (fun ix => (ix, iy)))

/-- Grid upsert: append the index at its cell, creating the cell at the
end on first touch (models one fixed `HashMap` layout). -/
def gridInsert : Grid → (ℤ × ℤ) → ℕ → Grid
  | [], c, i => [(c, [i])]
  | (k, v) :: rest, c, i =>
    if k = c then (k, v ++ [i]) :: rest else (k, v) :: gridInsert rest c i

/-- `HashMap::get` on the grid. -/
def gridGet : Grid → (ℤ × ℤ) → Option (List ℕ)
  | [], _ => none
  | (k, v) :: rest, c => if k = c then some v else gridGet rest c

/-- `PhysicsWorld::insert_into_grid`. -/
def insertIntoGrid (cfg : WorldConfig) (g : Grid) (idx : ℕ) (mn mx : Vec2) :
    Grid :=
  let cs := max cfg.cell_size cellClampMin
  let c0 := worldToCell mn cs
  let c1 := worldToCell mx cs
  (cellRect c0.1 c1.1 c0.2 c1.2).foldl (fun g c => gridInsert g c idx) g

/-- `PhysicsWorld::end_frame` (AABB build + grid build; timing omitted). -/
def endFrame (w : World) : World :=
  let aabbs := w.entries.map (computeEntryAabb w.cfg)
  let grid :=
    (List.range w.entries.length).foldl
      (fun g i =>
        let mm := aabbAt aabbs i
        insertIntoGrid w.cfg g i mm.1 mm.2)
      []
  { w with aabbs := aabbs, grid := grid }

/-- `PhysicsWorld::overlap_circle_aabb_bool`. -/
def overlapCircleAabbBool (circleC : Vec2) (r : ℚ) (boxC boxH : Vec2) : Bool :=
  let mn := boxC - boxH
  let mx := boxC + boxH
  let closest : Vec2 :=
    ⟨max (min circleC.x mx.x) mn.x, max (min circleC.y mx.y) mn.y⟩
  (closest - circleC).lengthSquared ≤ r * r

/-- `PhysicsWorld::overlap_pair_idx` (9-case shape dispatch). -/
def overlapPairIdx (entries : List Entry) (ai bi : ℕ) : Option Overlap :=
  let a := entryAt entries ai
  let b := entryAt entries bi
  let zeroOv : Vec2 → Option Overlap := fun c =>
    some ⟨Vec2.zero, 0, c, ResolutionHint.default⟩
  match a.desc.kind, b.desc.kind with
  | ColliderKind.aabb ha, ColliderKind.aabb hb =>
    overlapAabbAabb a.desc.center ha b.desc.center hb
  | ColliderKind.circle r0, ColliderKind.circle r1 =>
    overlapCircleCircle a.desc.center r0 b.desc.center r1
  | ColliderKind.point, ColliderKind.aabb hb =>
    if overlapPointAabb a.desc.center b.desc.center hb then
      zeroOv a.desc.center
    else none
  | ColliderKind.aabb ha, ColliderKind.point =>
    if overlapPointAabb b.desc.center a.desc.center ha then
      zeroOv b.desc.center
    else none
  | ColliderKind.point, ColliderKind.circle r =>
    if overlapPointCircle a.desc.center b.desc.center r then
      zeroOv a.desc.center
    else none
  | ColliderKind.circle r, ColliderKind.point =>
    if overlapPointCircle b.desc.center a.desc.center r then
      zeroOv b.desc.center
    else none
  | ColliderKind.circle r, ColliderKind.aabb hb =>
    if overlapCircleAabbBool a.desc.center r b.desc.center hb then
      zeroOv a.desc.center
    else none
  | ColliderKind.aabb ha, ColliderKind.circle r =>
    if overlapCircleAabbBool b.desc.center r a.desc.center ha then
      zeroOv b.desc.center
    else none
  | ColliderKind.point, ColliderKind.point =>
    if a.desc.center = b.desc.center then zeroOv a.desc.center else none

/-- `PhysicsWorld::sweep_pair_idx` (9-case shape dispatch, asymmetric
cases swap operands and negate the normal). -/
def sweepPairIdx (cfg : WorldConfig) (entries : List Entry) (ai bi : ℕ) :
    Option SweepHit :=
  let a := entryAt entries ai
  let b := entryAt entries bi
  let va := a.motion.vel.smul cfg.dt
  let vb := b.motion.vel.smul cfg.dt
  let flip : Option SweepHit → Option SweepHit := fun h =>
    match h with
    | none => none
    | some hit =>
      some ⟨hit.toi, -hit.normal, hit.contact, ResolutionHint.default⟩
  match a.desc.kind, b.desc.kind with
  | ColliderKind.aabb ha, ColliderKind.aabb hb =>
    sweepAabbAabb a.desc.center ha va b.desc.center hb vb
  | ColliderKind.circle r0, ColliderKind.circle r1 =>
    sweepCircleCircle a.desc.center r0 va b.desc.center r1 vb
  | ColliderKind.circle r, ColliderKind.aabb hb =>
    sweepCircleAabb a.desc.center r va b.desc.center hb vb
  | ColliderKind.aabb ha, ColliderKind.circle r =>
    flip (sweepCircleAabb b.desc.center r vb a.desc.center ha va)
  | ColliderKind.point, ColliderKind.aabb hb =>
    sweepCircleAabb a.desc.center 0 va b.desc.center hb vb
  | ColliderKind.aabb ha, ColliderKind.point =>
    flip (sweepCircleAabb b.desc.center 0 vb a.desc.center ha va)
  | ColliderKind.point, ColliderKind.circle r =>
    sweepCircleCircle a.desc.center 0 va b.desc.center r vb
  | ColliderKind.circle r, ColliderKind.point =>
    flip (sweepCircleCircle b.desc.center 0 vb a.desc.center r va)
  | ColliderKind.point, ColliderKind.point => none

/-- `PhysicsWorld::overlap_pair`. -/
def overlapPair (w : World) (a b : FrameId) : Option Overlap :=
  overlapPairIdx w.entries a b

/-- `PhysicsWorld::sweep_pair`. -/
def sweepPair (w : World) (a b : FrameId) : Option SweepHit :=
  sweepPairIdx w.cfg w.entries a b

-- ---------------------------------------------------------------------------
-- src/world.rs : tilemap lifecycle and tile scans
-- ---------------------------------------------------------------------------

/-- `PhysicsWorld::attach_tilemap` (push; handle = new slot index). -/
def attachTilemap (w : World) (m : TileMap) : World × TileMapRef :=
  ({ w with tilemaps := w.tilemaps ++ [m] }, w.tilemaps.length)

/-- `PhysicsWorld::detach_tilemap` (`Vec::remove`, shifting later slots). -/
def detachTilemap (w : World) (map : TileMapRef) : World :=
  if map < w.tilemaps.length then
    { w with tilemaps := w.tilemaps.eraseIdx map }
  else w

/-- `PhysicsWorld::tile_at`. -/
def tileAt (m : TileMap) (ix iy : ℤ) : Option ℕ :=
  if ix < 0 ∨ iy < 0 then none
  else
    let ux := ix.toNat
    let uy := iy.toNat
    if m.width ≤ ux ∨ m.height ≤ uy then none
    else some (uy * m.width + ux)

/-- `m.solids[idx]` (0 when out of range; well-formed maps have
`solids.length = width * height`). -/
def solidsGet (m : TileMap) (idx : ℕ) : ℕ := m.solids.getD idx 0

/-- `PhysicsWorld::any_tile_overlap_at`: first solid tile in the AABB
footprint overlapping the shape box, in y-outer x-inner order. -/
def anyTileOverlapAt (mi : ℕ) (m : TileMap) (center he : Vec2) :
    Option TileRef :=
  let cellq := max m.cell cellClampMin
  let mn := center - he - m.origin
  let mx := center + he - m.origin
  let ix0 := ⌊mn.x / cellq⌋
  let iy0 := ⌊mn.y / cellq⌋
  let ix1 := ⌊mx.x / cellq⌋
  let iy1 := ⌊mx.y / cellq⌋
  (cellRect ix0 ix1 iy0 iy1).findSome? fun c =>
    match tileAt m c.1 c.2 with
    | none => none
    | some idx =>
      if solidsGet m idx ≠ 0 then
        let tileMin := m.origin + ⟨(c.1 : ℚ) * cellq, (c.2 : ℚ) * cellq⟩
        let tileC := tileMin + Vec2.splat (cellq / 2)
        let tileH := Vec2.splat (cellq / 2)
        if (overlapAabbAabb center he tileC tileH).isSome then
          some ⟨mi, c.1.toNat, c.2.toNat⟩
        else none
      else none

/-- The 14-iteration binary refinement inside `sweep_shape_tiles`:
state `(lo, hi, prev_free)`; returns `(hi, prev_free)` after the loop. -/
def binRefine (mi : ℕ) (m : TileMap) (p0 d he : Vec2) :
    ℕ → ℚ → ℚ → Vec2 → ℚ × Vec2
  | 0, _, hi, prevFree => (hi, prevFree)
  | fuel + 1, lo, hi, prevFree =>
    let mid := (lo + hi) / 2
    let q := p0 + d.smul mid
    if (anyTileOverlapAt mi m q he).isSome then
      binRefine mi m p0 d he fuel lo mid prevFree
    else
      binRefine mi m p0 d he fuel mid hi q

/-- The stepped traversal of `sweep_shape_tiles` over one tilemap:
`for i in 1..=steps` with state `(t_prev, prev_free)`; on the first
overlapping sample, refine by binary search and build the hit. -/
def sweepMapLoop (mi : ℕ) (m : TileMap) (p0 d he : Vec2) (eps cellq
    stepsF : ℚ) : ℕ → ℕ → ℚ → Vec2 → Option (TileRef × SweepHit × Option ColKey)
  | 0, _, _, _ => none
  | rem + 1, i, tPrev, prevFree =>
    let t := min ((i : ℚ) / stepsF) 1
    let p := p0 + d.smul t
    match anyTileOverlapAt mi m p he with
    | some tref =>
      let r := binRefine mi m p0 d he 14 tPrev t prevFree
      let toi := r.1
      let pHit := p0 + d.smul toi
      let tileMin :=
        m.origin + (⟨(tref.cellX : ℚ) * cellq, (tref.cellY : ℚ) * cellq⟩ : Vec2)
      let push := aabbTilePushout pHit he tileMin cellq
      let normal :=
        if push.1.lengthSquared > 0 then push.1
        else (pHit - r.2).normalizeOrZero
      some (tref,
        ⟨toi, normal, push.2.2,
         ⟨some (p0 + d.smul (toi - eps)), false, false⟩⟩,
        m.user_key)
    | none => sweepMapLoop mi m p0 d he eps cellq stepsF rem (i + 1) t p

/-- The per-tilemap dispatch of `sweep_shape_tiles` (the `for (mi, m)`
loop with `break` once `best` is set). -/
def sweepTilesGo (cfg : WorldConfig) (mask : LayerMask) (p0 d he : Vec2)
    (eps : ℚ) : ℕ → List TileMap → Option (TileRef × SweepHit × Option ColKey)
  | _, [] => none
  | mi, m :: rest =>
    if ¬ allowsPair cfg mask m.mask then sweepTilesGo cfg mask p0 d he eps (mi + 1) rest
    else
      let cellq := max m.cell cellClampMin
      let len := d.length
      let stepsF := max ⌈len / cellq⌉ 1 * 2
      let steps := stepsF.toNat
      match sweepMapLoop mi m p0 d he eps cellq (stepsF : ℚ) steps 1 0 p0 with
      | some hit => some hit
      | none => sweepTilesGo cfg mask p0 d he eps (mi + 1) rest

/-- `PhysicsWorld::sweep_shape_tiles`: per consenting tilemap in slot
order, conservative stepped sweep; the first map producing a hit wins. -/
def sweepShapeTiles (cfg : WorldConfig) (tilemaps : List TileMap)
    (center he vel : Vec2) (mask : LayerMask) :
    Option (TileRef × SweepHit × Option ColKey) :=
  sweepTilesGo cfg mask center (vel.smul cfg.dt) he
    (max cfg.tile_eps tileEpsMin) 0 tilemaps

/-- `PhysicsWorld::sweep_aabb_tiles`. -/
def sweepAabbTiles (w : World) (center he vel : Vec2) (mask : LayerMask) :
    Option (TileRef × SweepHit × Option ColKey) :=
  sweepShapeTiles w.cfg w.tilemaps center he vel mask

/-- `PhysicsWorld::sweep_circle_tiles`. -/
def sweepCircleTiles (w : World) (center : Vec2) (radius : ℚ) (vel : Vec2)
    (mask : LayerMask) : Option (TileRef × SweepHit × Option ColKey) :=
  sweepShapeTiles w.cfg w.tilemaps center (Vec2.splat radius) vel mask

/-- Comparison on `Option ℚ` where `none` is `+∞` (`t_max_x < t_max_y`). -/
def ltInf : Option ℚ → Option ℚ → Bool
  | some a, some b => a < b
  | some _, none => true
  | none, _ => false

/-- The per-tilemap DDA loop of `raycast_tiles_internal`.  State:
current cell `(cx, cy)`, boundary times, current entry time, and the
axis of the last step (`none` = still the starting cell).  Fuel 20 000. -/
def rayTilesLoop (cfg : WorldConfig) (mi : ℕ) (m : TileMap)
    (origin dir : Vec2) (maxT eps : ℚ) (mask : LayerMask)
    (stepX stepY : ℤ) (tDeltaX tDeltaY : Option ℚ) :
    ℕ → ℤ → ℤ → Option ℚ → Option ℚ → ℚ → Option Bool →
    Option (TileRef × SweepHit × Option ColKey)
  | 0, _, _, _, _, _, _ => none
  | fuel + 1, cx, cy, tMaxX, tMaxY, tCurr, lastAxisX =>
    if tCurr > maxT then none
    else
      let solidHit : Bool :=
        if 0 ≤ cx ∧ 0 ≤ cy ∧ cx.toNat < m.width ∧ cy.toNat < m.height then
          let idx := cy.toNat * m.width + cx.toNat
          solidsGet m idx ≠ 0 && allowsPair cfg mask m.mask
        else false
      if solidHit then
        let toi := max tCurr 0
        let normal : Vec2 :=
          match lastAxisX with
          | some true => ⟨-(stepX : ℚ), 0⟩
          | some false => ⟨0, -(stepY : ℚ)⟩
          | none => Vec2.zero
        some (⟨mi, cx.toNat, cy.toNat⟩,
          ⟨toi, normal, origin + dir.smul toi,
           ⟨some (origin + dir.smul (toi - eps)), false, false⟩⟩,
          m.user_key)
      else
        if ltInf tMaxX tMaxY then
          let tx := tMaxX.getD 0
          rayTilesLoop cfg mi m origin dir maxT eps mask stepX stepY tDeltaX
            tDeltaY fuel (cx + stepX) cy
            (some (tx + tDeltaX.getD 0)) tMaxY tx (some true)
        else
          let ty := tMaxY.getD 0
          rayTilesLoop cfg mi m origin dir maxT eps mask stepX stepY tDeltaX
            tDeltaY fuel cx (cy + stepY)
            tMaxX (some (ty + tDeltaY.getD 0)) ty (some false)

/-- DDA setup plus loop for one tilemap (`raycast_tiles_internal` body). -/
def rayTilesOneMap (cfg : WorldConfig) (mi : ℕ) (m : TileMap)
    (origin dir : Vec2) (maxT : ℚ) (mask : LayerMask) :
    Option (TileRef × SweepHit × Option ColKey) :=
  let eps := max cfg.tile_eps tileEpsMin
  let cellq := max m.cell cellClampMin
  let localv := origin - m.origin
  let cx : ℤ := ⌊localv.x / cellq⌋
  let cy : ℤ := ⌊localv.y / cellq⌋
  let stepX : ℤ := if dir.x > 0 then 1 else if dir.x < 0 then -1 else 0
  let stepY : ℤ := if dir.y > 0 then 1 else if dir.y < 0 then -1 else 0
  let nbX : ℚ := if stepX > 0 then ((cx : ℚ) + 1) * cellq else (cx : ℚ) * cellq
  let nbY : ℚ := if stepY > 0 then ((cy : ℚ) + 1) * cellq else (cy : ℚ) * cellq
  let tMaxX : Option ℚ :=
    if stepX ≠ 0 then some ((m.origin.x + nbX - origin.x) / dir.x) else none
  let tMaxY : Option ℚ :=
    if stepY ≠ 0 then some ((m.origin.y + nbY - origin.y) / dir.y) else none
  let tDeltaX : Option ℚ := if stepX ≠ 0 then some (cellq / |dir.x|) else none
  let tDeltaY : Option ℚ := if stepY ≠ 0 then some (cellq / |dir.y|) else none
  rayTilesLoop cfg mi m origin dir maxT eps mask stepX stepY tDeltaX tDeltaY
    20000 cx cy tMaxX tMaxY 0 none

/-- The per-tilemap fold of `raycast_tiles_internal`: best (strictly
smaller `toi` wins, earlier map wins ties) across the maps. -/
def rayTilesGo (cfg : WorldConfig) (origin dir : Vec2) (maxT : ℚ)
    (mask : LayerMask) : ℕ → List TileMap →
    Option (TileRef × SweepHit × Option ColKey) →
    Option (TileRef × SweepHit × Option ColKey)
  | _, [], best => best
  | mi, m :: rest, best =>
    let best2 :=
      match rayTilesOneMap cfg mi m origin dir maxT mask with
      | none => best
      | some hit =>
        match best with
        | some bh => if hit.2.1.toi ≥ bh.2.1.toi then best else some hit
        | none => some hit
    rayTilesGo cfg origin dir maxT mask (mi + 1) rest best2

/-- `PhysicsWorld::raycast_tiles_internal`: best (strictly smaller `toi`
wins, earlier map wins ties) across all tilemaps. -/
def raycastTilesInternal (cfg : WorldConfig) (tilemaps : List TileMap)
    (origin dir : Vec2) (maxT : ℚ) (mask : LayerMask) :
    Option (TileRef × SweepHit × Option ColKey) :=
  if dir.lengthSquared = 0 then none
  else rayTilesGo cfg origin dir maxT mask 0 tilemaps none

/-- `PhysicsWorld::raycast_tiles`. -/
def raycastTiles (w : World) (origin dir : Vec2) (maxT : ℚ)
    (mask : LayerMask) : Option (TileRef × SweepHit × Option ColKey) :=
  raycastTilesInternal w.cfg w.tilemaps origin dir maxT mask

/-- The per-entry primitive dispatch of `raycast` (the `let hit = match`
block). -/
def rayTestEntry (w : World) (origin dir : Vec2) (idx : ℕ) :
    Option SweepHit :=
  match (entryAt w.entries idx).desc.kind with
  | ColliderKind.aabb _ =>
    rayAabb origin dir (aabbAt w.aabbs idx).1 (aabbAt w.aabbs idx).2
  | ColliderKind.circle radius =>
    rayCircle origin dir (entryAt w.entries idx).desc.center radius
  | ColliderKind.point =>
    rayCircle origin dir (entryAt w.entries idx).desc.center 0

/-- Per-cell scan of `PhysicsWorld::raycast`: test every not-yet-tested
entry in the cell list against the ray, keeping the strictly closest
accepted hit. -/
def raycastCellScan (w : World) (origin dir : Vec2) (maxT : ℚ)
    (mask : LayerMask) (st : List ℕ × Option (ℕ × SweepHit)) (idx : ℕ) :
    List ℕ × Option (ℕ × SweepHit) :=
  if idx ∈ st.1 then st
  else
    let tested := idx :: st.1
    let e := entryAt w.entries idx
    if ¬ (mask.allows e.desc.mask && e.desc.mask.allows mask) then
      (tested, st.2)
    else
      match rayTestEntry w origin dir idx with
      | none => (tested, st.2)
      | some h =>
        if h.toi < 0 ∨ h.toi > maxT then (tested, st.2)
        else
          let h2 : SweepHit := ⟨h.toi, h.normal, h.contact, ResolutionHint.default⟩
          match st.2 with
          | some b => if h2.toi ≥ b.2.toi then (tested, st.2) else (tested, some (idx, h2))
          | none => (tested, some (idx, h2))

/-- The DDA loop of `PhysicsWorld::raycast` (fuel 10 000). -/
def raycastLoop (w : World) (origin dir : Vec2) (maxT : ℚ) (mask : LayerMask)
    (stepX stepY : ℤ) (tDeltaX tDeltaY : Option ℚ) (cs : ℚ) :
    ℕ → ℤ × ℤ → Option ℚ → Option ℚ → ℚ → List ℕ × Option (ℕ × SweepHit) →
    List ℕ × Option (ℕ × SweepHit)
  | 0, _, _, _, _, st => st
  | fuel + 1, cell, tMaxX, tMaxY, tCurr, st =>
    if tCurr > maxT then st
    else
      let st2 :=
        match gridGet w.grid cell with
        | none => st
        | some list => list.foldl (raycastCellScan w origin dir maxT mask) st
      if ltInf tMaxX tMaxY then
        let tx := tMaxX.getD 0
        raycastLoop w origin dir maxT mask stepX stepY tDeltaX tDeltaY cs fuel
          (cell.1 + stepX, cell.2) (some (tx + tDeltaX.getD 0)) tMaxY tx st2
      else
        let ty := tMaxY.getD 0
        raycastLoop w origin dir maxT mask stepX stepY tDeltaX tDeltaY cs fuel
          (cell.1, cell.2 + stepY) tMaxX (some (ty + tDeltaY.getD 0)) ty st2

/-- The DDA setup and loop of `raycast`, returning the best tested hit. -/
def raycastCore (w : World) (origin dir : Vec2) (mask : LayerMask)
    (maxT : ℚ) : Option (ℕ × SweepHit) :=
  let cs := max w.cfg.cell_size cellClampMin
  let cell := worldToCell origin cs
  let stepX : ℤ := if dir.x > 0 then 1 else if dir.x < 0 then -1 else 0
  let stepY : ℤ := if dir.y > 0 then 1 else if dir.y < 0 then -1 else 0
  let nbX : ℚ :=
    if stepX > 0 then ((cell.1 : ℚ) + 1) * cs else (cell.1 : ℚ) * cs
  let nbY : ℚ :=
    if stepY > 0 then ((cell.2 : ℚ) + 1) * cs else (cell.2 : ℚ) * cs
  let tMaxX : Option ℚ :=
    if stepX ≠ 0 then some ((nbX - origin.x) / dir.x) else none
  let tMaxY : Option ℚ :=
    if stepY ≠ 0 then some ((nbY - origin.y) / dir.y) else none
  let tDeltaX : Option ℚ := if stepX ≠ 0 then some (cs / |dir.x|) else none
  let tDeltaY : Option ℚ := if stepY ≠ 0 then some (cs / |dir.y|) else none
  (raycastLoop w origin dir maxT mask stepX stepY tDeltaX tDeltaY
    cs 10000 cell tMaxX tMaxY 0 ([], none)).2

/-- `PhysicsWorld::raycast` (collider raycast via DDA over the grid). -/
def raycast (w : World) (origin dir : Vec2) (mask : LayerMask) (maxT : ℚ) :
    Option (FrameId × SweepHit × Option ColKey) :=
  if dir.lengthSquared = 0 then none
  else
    match raycastCore w origin dir mask maxT with
    | none => none
    | some b => some (b.1, b.2, (entryAt w.entries b.1).desc.user_key)

/-- `PhysicsWorld::raycast_all` (colliders plus tiles; smaller toi wins,
collider wins ties). -/
def raycastAll (w : World) (origin dir : Vec2) (mask : LayerMask)
    (maxT : ℚ) : Option (BodyRef × SweepHit × Option ColKey) :=
  let best0 : Option (BodyRef × SweepHit × Option ColKey) :=
    match raycast w origin dir mask maxT with
    | some r => some (BodyRef.collider r.1, r.2.1, r.2.2)
    | none => none
  match raycastTilesInternal w.cfg w.tilemaps origin dir maxT mask with
  | none => best0
  | some r =>
    match best0 with
    | some b => if r.2.1.toi ≥ b.2.1.toi then best0
                else some (BodyRef.tile r.1, r.2.1, r.2.2)
    | none => some (BodyRef.tile r.1, r.2.1, r.2.2)

/-- `PhysicsWorld::query_point` (collider point query). -/
def queryPoint (w : World) (p : Vec2) (mask : LayerMask) :
    List (FrameId × Option ColKey) :=
  let cs := max w.cfg.cell_size cellClampMin
  let cell := worldToCell p cs
  match gridGet w.grid cell with
  | none => []
  | some list =>
    list.foldl
      (fun out idx =>
        let e := entryAt w.entries idx
        if ¬ (mask.allows e.desc.mask && e.desc.mask.allows mask) then out
        else
          let hit : Bool :=
            match e.desc.kind with
            | ColliderKind.aabb _ =>
              overlapPointAabb p e.desc.center (halfExtentsOfKind e.desc.kind)
            | ColliderKind.circle radius =>
              overlapPointCircle p e.desc.center radius
            | ColliderKind.point => p = e.desc.center
          if hit then out ++ [(idx, e.desc.user_key)] else out)
      []

/-- Shared cell-range scan of `query_aabb` / `query_circle`: walk the
covered cells, dedup with a visited list, test each entry. -/
def queryRangeScan (w : World) (mask : LayerMask) (mn mx : Vec2)
    (test : Entry → ℕ → Bool) : List (FrameId × Option ColKey) :=
  let cs := max w.cfg.cell_size cellClampMin
  let c0 := worldToCell mn cs
  let c1 := worldToCell mx cs
  let step := fun (st : List ℕ × List (FrameId × Option ColKey)) (c : ℤ × ℤ) =>
    match gridGet w.grid c with
    | none => st
    | some list =>
      list.foldl
        (fun st idx =>
          if idx ∈ st.1 then st
          else
            let seen := idx :: st.1
            let e := entryAt w.entries idx
            if ¬ (mask.allows e.desc.mask && e.desc.mask.allows mask) then
              (seen, st.2)
            else if test e idx then (seen, st.2 ++ [(idx, e.desc.user_key)])
            else (seen, st.2))
        st
  ((cellRect c0.1 c1.1 c0.2 c1.2).foldl step ([], [])).2

/-- `PhysicsWorld::query_aabb`. -/
def queryAabb (w : World) (center halfExtents : Vec2) (mask : LayerMask) :
    List (FrameId × Option ColKey) :=
  queryRangeScan w mask (center - halfExtents) (center + halfExtents)
    (fun e idx =>
      match e.desc.kind with
      | ColliderKind.aabb _ =>
        (overlapAabbAabb e.desc.center (halfExtentsOfKind e.desc.kind) center
          halfExtents).isSome
      | ColliderKind.circle radius =>
        overlapCircleAabbBool e.desc.center radius center halfExtents
      | ColliderKind.point => overlapPointAabb e.desc.center center halfExtents)

/-- `PhysicsWorld::query_circle`. -/
def queryCircle (w : World) (center : Vec2) (radius : ℚ) (mask : LayerMask) :
    List (FrameId × Option ColKey) :=
  queryRangeScan w mask (center - Vec2.splat radius) (center + Vec2.splat radius)
    (fun e idx =>
      match e.desc.kind with
      | ColliderKind.aabb _ =>
        overlapCircleAabbBool center radius e.desc.center
          (halfExtentsOfKind e.desc.kind)
      | ColliderKind.circle r1 =>
        (overlapCircleCircle center radius e.desc.center r1).isSome
      | ColliderKind.point => overlapPointCircle e.desc.center center radius)

/-- The per-tilemap tile portion of `query_point_all`. -/
def queryPointTiles (cfg : WorldConfig) (tilemaps : List TileMap) (p : Vec2)
    (mask : LayerMask) : List (BodyRef × Option ColKey) :=
  (tilemaps.enum.map fun pr =>
    let mi := pr.1
    let m := pr.2
    if ¬ allowsPair cfg mask m.mask then []
    else
      let cellq := max m.cell cellClampMin
      let localv := p - m.origin
      let cx : ℤ := ⌊localv.x / cellq⌋
      let cy : ℤ := ⌊localv.y / cellq⌋
      if 0 ≤ cx ∧ 0 ≤ cy ∧ cx.toNat < m.width ∧ cy.toNat < m.height then
        let idx := cy.toNat * m.width + cx.toNat
        if solidsGet m idx ≠ 0 then
          [(BodyRef.tile ⟨mi, cx.toNat, cy.toNat⟩, m.user_key)]
        else []
      else []).flatten

/-- `PhysicsWorld::query_point_all`. -/
def queryPointAll (w : World) (p : Vec2) (mask : LayerMask) :
    List (BodyRef × Option ColKey) :=
  (queryPoint w p mask).map (fun r => (BodyRef.collider r.1, r.2)) ++
    queryPointTiles w.cfg w.tilemaps p mask

/-- The per-tilemap solid-tile collection shared by `query_aabb_all` and
`query_circle_all`: all solid tiles in the footprint rectangle passing
the given shape test, in y-outer x-inner order. -/
def queryTilesRect (cfg : WorldConfig) (tilemaps : List TileMap)
    (mn mx : Vec2) (mask : LayerMask)
    (test : Vec2 → Vec2 → Bool) : List (BodyRef × Option ColKey) :=
  (tilemaps.enum.map fun pr =>
    let mi := pr.1
    let m := pr.2
    if ¬ allowsPair cfg mask m.mask then []
    else
      let cellq := max m.cell cellClampMin
      let lmn := mn - m.origin
      let lmx := mx - m.origin
      let ix0 := ⌊lmn.x / cellq⌋
      let iy0 := ⌊lmn.y / cellq⌋
      let ix1 := ⌊lmx.x / cellq⌋
      let iy1 := ⌊lmx.y / cellq⌋
      ((cellRect ix0 ix1 iy0 iy1).map fun c =>
        match tileAt m c.1 c.2 with
        | none => []
        | some idx =>
          if solidsGet m idx = 0 then []
          else
            let tileMin := m.origin + (⟨(c.1 : ℚ) * cellq, (c.2 : ℚ) * cellq⟩ : Vec2)
            let tileC := tileMin + Vec2.splat (cellq / 2)
            let tileH := Vec2.splat (cellq / 2)
            if test tileC tileH then
              [(BodyRef.tile ⟨mi, c.1.toNat, c.2.toNat⟩, m.user_key)]
            else []).flatten).flatten

/-- `PhysicsWorld::query_aabb_all`. -/
def queryAabbAll (w : World) (center halfExtents : Vec2) (mask : LayerMask) :
    List (BodyRef × Option ColKey) :=
  (queryAabb w center halfExtents mask).map
      (fun r => (BodyRef.collider r.1, r.2)) ++
    queryTilesRect w.cfg w.tilemaps (center - halfExtents)
      (center + halfExtents) mask
      (fun tileC tileH => (overlapAabbAabb center halfExtents tileC tileH).isSome)

/-- `PhysicsWorld::query_circle_all`. -/
def queryCircleAll (w : World) (center : Vec2) (radius : ℚ)
    (mask : LayerMask) : List (BodyRef × Option ColKey) :=
  (queryCircle w center radius mask).map
      (fun r => (BodyRef.collider r.1, r.2)) ++
    queryTilesRect w.cfg w.tilemaps (center - Vec2.splat radius)
      (center + Vec2.splat radius) mask
      (fun tileC tileH => overlapCircleAabbBool center radius tileC tileH)

-- ---------------------------------------------------------------------------
-- src/world.rs : update_tiles and generate_events
-- ---------------------------------------------------------------------------

/-- Write `vals` into `l` starting at offset `off` (the slice copy
`solids[off..off+len].copy_from_slice`). -/
def setRange (l : List ℕ) (off : ℕ) (vals : List ℕ) : List ℕ :=
  l.take off ++ vals ++ l.drop (off + vals.length)

/-- The row loop of `update_tiles`.  `none` models a panic: when
`x > width`, the `u32` subtraction `m.width - x` underflows (debug
assertion; in release the wrapped length makes the slice index panic). -/
def updateTilesGo (width height x y w : ℕ) (data : List ℕ) :
    ℕ → ℕ → List ℕ → Option (List ℕ)
  | 0, _, s => some s
  | rem + 1, row, s =>
    let dstY := y + row
    if height ≤ dstY then some s
    else if width < x then none
    else
      let len := min w (width - x)
      let dstOff := dstY * width + x
      let srcOff := row * w
      updateTilesGo width height x y w data rem (row + 1)
        (setRange s dstOff ((data.drop srcOff).take len))

/-- `PhysicsWorld::update_tiles`.  `none` models a panic: the
`assert_eq!((w * h) as usize, data.len())` or a row-copy failure.  An
unknown handle is a silent no-op (`if let Some(m) = get_mut`). -/
def updateTiles (wd : World) (map : TileMapRef)
    (rect : ℕ × ℕ × ℕ × ℕ) (data : List ℕ) : Option World :=
  match wd.tilemaps.get? map with
  | none => some wd
  | some m =>
    let x := rect.1
    let y := rect.2.1
    let w := rect.2.2.1
    let h := rect.2.2.2
    if w * h ≠ data.length then none
    else
      match updateTilesGo m.width m.height x y w data h 0 m.solids with
      | none => none
      | some s2 =>
        some { wd with tilemaps := wd.tilemaps.set map { m with solids := s2 } }

/-- `push_event`: append only while below the cap (silent drop). -/
def pushEvent (buf : List Event) (ev : Event) (maxE : ℕ) : List Event :=
  if buf.length < maxE then buf ++ [ev] else buf

/-- Canonicalised pair key `(min, max)`. -/
def pairKey (a b : ℕ) : ℕ × ℕ := if a < b then (a, b) else (b, a)

/-- Ordered index pairs `(a, b)` with `a` before `b` in the cell list
(the `i0 < i1` double loop). -/
def listPairs : List ℕ → List (ℕ × ℕ)
  | [] => []
  | a :: rest => rest.map (fun b => (a, b)) ++ listPairs rest

/-- All candidate pairs in grid order (`for indices in grid.values()`). -/
def allCandidates (g : Grid) : List (ℕ × ℕ) :=
  g.flatMap (fun kv => listPairs kv.2)

/-- Phase-1 narrowphase dispatch for one deduplicated candidate pair:
mask consent, dynamic test, sweep/overlap selection, event construction
(`generate_events`, collider × collider). -/
def processPair (cfg : WorldConfig) (entries : List Entry) (a b : ℕ) :
    Option Event :=
  let ea := entryAt entries a
  let eb := entryAt entries b
  if ¬ allowsPair cfg ea.desc.mask eb.desc.mask then none
  else
    let rel := ea.motion.vel - eb.motion.vel
    let dynamic := rel.lengthSquared > dynEps
    let overlapEv : Option Event :=
      match overlapPairIdx entries a b with
      | some ov =>
        some ⟨EventKind.overlap, BodyRef.collider a, BodyRef.collider b,
          ea.desc.user_key, eb.desc.user_key,
          some ⟨ov.normal, ov.depth, ov.contact, ResolutionHint.default⟩, none⟩
      | none => none
    if dynamic ∧ cfg.enable_sweep_events then
      match sweepPairIdx cfg entries a b with
      | some sw =>
        some ⟨EventKind.sweep, BodyRef.collider a, BodyRef.collider b,
          ea.desc.user_key, eb.desc.user_key, none,
          some ⟨sw.toi, sw.normal, sw.contact, ResolutionHint.default⟩⟩
      | none => if cfg.enable_overlap_events then overlapEv else none
    else if cfg.enable_overlap_events then overlapEv
    else none

/-- Phase-1 fold state: event buffer, dedup set, and whether the early
`return` (cap reached at the head of a pair iteration) fired. -/
structure P1State where
  events : List Event
  seen : List (ℕ × ℕ)
  aborted : Bool
deriving DecidableEq

/-- One candidate pair of phase 1: dedup insert, cap check (early
return), then narrowphase dispatch and push. -/
def phase1Step (cfg : WorldConfig) (entries : List Entry) (st : P1State)
    (p : ℕ × ℕ) : P1State :=
  if st.aborted then st
  else
    let key := pairKey p.1 p.2
    if key ∈ st.seen then st
    else
      let seen2 := key :: st.seen
      if cfg.max_events ≤ st.events.length then ⟨st.events, seen2, true⟩
      else
        match processPair cfg entries p.1 p.2 with
        | some ev => ⟨pushEvent st.events ev cfg.max_events, seen2, false⟩
        | none => ⟨st.events, seen2, false⟩

/-- Phase 1 of `generate_events` over a given grid iteration order. -/
def phase1 (cfg : WorldConfig) (entries : List Entry) (g : Grid)
    (events0 : List Event) : P1State :=
  (allCandidates g).foldl (phase1Step cfg entries) ⟨events0, [], false⟩

/-- The first tile-overlap event for one collider in phase 2 (the
`for (mi, m) in tilemaps` scan with `break` on the first overlap). -/
def phase2OverlapEvent (cfg : WorldConfig) (tilemaps : List TileMap)
    (i : ℕ) (e : Entry) (he : Vec2) : Option Event :=
  (tilemaps.enum.findSome? fun pr =>
    let mi := pr.1
    let m := pr.2
    if ¬ allowsPair cfg e.desc.mask m.mask then none
    else
      match anyTileOverlapAt mi m e.desc.center he with
      | none => none
      | some tref =>
        let cellq := max m.cell cellClampMin
        let tileMin :=
          m.origin + (⟨(tref.cellX : ℚ) * cellq, (tref.cellY : ℚ) * cellq⟩ : Vec2)
        let push :=
          if he = Vec2.zero then
            circleTilePushout e.desc.center 0 tileMin cellq
          else if he.x = he.y then
            circleTilePushout e.desc.center he.x tileMin cellq
          else
            aabbTilePushout e.desc.center he tileMin cellq
        some ⟨EventKind.overlap, BodyRef.collider i, BodyRef.tile tref,
          e.desc.user_key, m.user_key,
          some ⟨push.1, push.2.1, push.2.2, ⟨none, true, false⟩⟩, none⟩)

/-- Phase-2 processing of one collider: tile sweep event when moving and
sweeps are enabled, otherwise the first start-embedded tile overlap. -/
def phase2Entry (cfg : WorldConfig) (tilemaps : List TileMap)
    (events : List Event) (i : ℕ) (e : Entry) : List Event :=
  let he := halfExtentsOfKind e.desc.kind
  let v := e.motion.vel
  let sweepEv : Option Event :=
    if v.lengthSquared > dynEps ∧ cfg.enable_sweep_events then
      match sweepShapeTiles cfg tilemaps e.desc.center he v e.desc.mask with
      | some r =>
        some ⟨EventKind.sweep, BodyRef.collider i, BodyRef.tile r.1,
          e.desc.user_key, r.2.2, none,
          some ⟨r.2.1.toi, r.2.1.normal, r.2.1.contact,
            ⟨r.2.1.hint.safe_pos, false, r.2.1.hint.fully_embedded⟩⟩⟩
      | none => none
    else none
  match sweepEv with
  | some ev => pushEvent events ev cfg.max_events
  | none =>
    if cfg.enable_overlap_events then
      match phase2OverlapEvent cfg tilemaps i e he with
      | some ev => pushEvent events ev cfg.max_events
      | none => events
    else events

/-- Phase 2 of `generate_events`: per collider, stop once the buffer is
full. -/
def phase2 (cfg : WorldConfig) (tilemaps : List TileMap)
    (entries : List Entry) (events0 : List Event) : List Event :=
  (entries.enum.foldl
    (fun (st : List Event × Bool) pr =>
      if st.2 then st
      else
        let ev2 := phase2Entry cfg tilemaps st.1 pr.1 pr.2
        (ev2, cfg.max_events ≤ ev2.length))
    (events0, false)).1

/-- `PhysicsWorld::generate_events` over a given grid iteration order
(the order of `w.grid` as a list). -/
def generateEvents (w : World) : World :=
  let p1 := phase1 w.cfg w.entries w.grid w.events
  if p1.aborted then { w with events := p1.events }
  else if p1.events.length < w.cfg.max_events then
    { w with events := phase2 w.cfg w.tilemaps w.entries p1.events }
  else { w with events := p1.events }

/-- `PhysicsWorld::drain_events`. -/
def drainEvents (w : World) : List Event × World :=
  (w.events, { w with events := [] })

/-- `PhysicsWorld` key lookup (`key_to_id`): first entry with the key. -/
def keyToId (entries : List Entry) (k : ColKey) : Option ℕ :=
  (entries.enum.find? (fun pr => pr.2.desc.user_key = some k)).map (fun pr => pr.1)

/-- `PhysicsWorld::overlap_by_key`. -/
def overlapByKey (w : World) (a b : ColKey) : Option Overlap :=
  match keyToId w.entries a, keyToId w.entries b with
  | some ia, some ib => overlapPairIdx w.entries ia ib
  | _, _ => none

/-- `PhysicsWorld::sweep_by_key`. -/
def sweepByKey (w : World) (a b : ColKey) : Option SweepHit :=
  match keyToId w.entries a, keyToId w.entries b with
  | some ia, some ib => sweepPairIdx w.cfg w.entries ia ib
  | _, _ => none

-- ---------------------------------------------------------------------------
-- Helper lemmas
-- ---------------------------------------------------------------------------

-- ---------------------------------------------------------------------------
-- Modelled predicates and example frames used by the claims
-- ---------------------------------------------------------------------------

/-- A shape pairing other than Aabb×Aabb and Circle×Circle. -/
def isMixedPair : ColliderKind → ColliderKind → Bool
  | ColliderKind.aabb _, ColliderKind.aabb _ => false
  | ColliderKind.circle _, ColliderKind.circle _ => false
  | _, _ => true

/-- Example frame for the C10 witness: a circle of radius 5 at the origin
deeply interpenetrated by a unit box at `(1/10, 0)`. -/
def claim10exEntries : List Entry :=
  [⟨⟨ColliderKind.circle 5, ⟨0, 0⟩, ⟨1, 1, 0⟩, none⟩, ⟨⟨0, 0⟩⟩⟩,
   ⟨⟨ColliderKind.aabb ⟨1, 1⟩, ⟨1/10, 0⟩, ⟨1, 1, 0⟩, none⟩, ⟨⟨0, 0⟩⟩⟩]

/-- The unit-test configuration of the repository (`cfg()` in the world
tests): cell 1, dt 1, tighten on, both event kinds on, cap 1024,
`tile_eps = 1e-4`, mutual consent. -/
def exCfg : WorldConfig := ⟨1, 1, true, true, true, 1024, 1/10^4, true⟩

def exMask11 : LayerMask := LayerMask.simple 1 1

def exMask12 : LayerMask := LayerMask.simple 1 2

def exMask21 : LayerMask := LayerMask.simple 2 1

/-- Two unit boxes at `(2,0)` and `(4,0)` (the `test_raycast_hits_closest`
frame), built. -/
def claim1exWorld : World :=
  endFrame ⟨exCfg,
    [⟨⟨ColliderKind.aabb ⟨1/2, 1/2⟩, ⟨2, 0⟩, exMask11, some 1⟩, ⟨⟨0, 0⟩⟩⟩,
     ⟨⟨ColliderKind.aabb ⟨1/2, 1/2⟩, ⟨4, 0⟩, exMask11, some 2⟩, ⟨⟨0, 0⟩⟩⟩],
    [], [], [], []⟩

/-- A 1×1 all-solid tilemap at the origin with unit cells. -/
def claim3exMap : TileMap := ⟨⟨0, 0⟩, 1, 1, 1, [1], exMask21, some 42⟩

def claim3exWorld : World := ⟨exCfg, [], [], [], [claim3exMap], []⟩

/-- The safe position the engine reports for the start-embedded sweep of
the C3 failing input: `x = 1/2 + (1/32768 − 1/10000)`. -/
def claim3SafePos : Vec2 := ⟨10238577/20480000, 1/2⟩

/-- A 2×2 all-empty tilemap world for the C9 failing input. -/
def claim9exWorld : World :=
  ⟨exCfg, [], [], [], [⟨⟨0, 0⟩, 1, 2, 2, [0, 0, 0, 0], exMask21, none⟩], []⟩

/-- Three stationary, pairwise-consenting boxes: entry 0 spans grid cells
`(0,0)` and `(1,0)`; entry 1 lives only in `(0,0)`; entry 2 only in
`(1,0)`.  Pairs (0,1) and (0,2) both overlap. -/
def claim2exEntries : List Entry :=
  [⟨⟨ColliderKind.aabb ⟨6/10, 4/10⟩, ⟨1, 1/2⟩, exMask11, some 100⟩, ⟨⟨0, 0⟩⟩⟩,
   ⟨⟨ColliderKind.aabb ⟨2/10, 2/10⟩, ⟨3/10, 1/2⟩, exMask11, some 200⟩, ⟨⟨0, 0⟩⟩⟩,
   ⟨⟨ColliderKind.aabb ⟨2/10, 2/10⟩, ⟨17/10, 1/2⟩, exMask11, some 300⟩, ⟨⟨0, 0⟩⟩⟩]

def claim2exWorld : World := endFrame ⟨exCfg, claim2exEntries, [], [], [], []⟩

/-- The same broadphase grid with its cells listed in the opposite
order — another legitimate iteration order of the source's `HashMap`. -/
def claim2exWorldRev : World :=
  { claim2exWorld with grid := claim2exWorld.grid.reverse }

/-- The canonical pair key of a collider×collider event. -/
def eventPairKey (ev : Event) : Option (ℕ × ℕ) :=
  match ev.a, ev.b with
  | BodyRef.collider a, BodyRef.collider b => some (pairKey a b)
  | _, _ => none

/-- The Sweep event phase 1 builds for pair `(a, b)` and hit `s`. -/
def mkSweepEvent (entries : List Entry) (a b : ℕ) (s : SweepHit) : Event :=
  ⟨EventKind.sweep, BodyRef.collider a, BodyRef.collider b,
    (entryAt entries a).desc.user_key, (entryAt entries b).desc.user_key,
    none, some ⟨s.toi, s.normal, s.contact, ResolutionHint.default⟩⟩

/-- The Overlap event phase 1 builds for pair `(a, b)` and overlap `o`. -/
def mkOverlapEvent (entries : List Entry) (a b : ℕ) (o : Overlap) : Event :=
  ⟨EventKind.overlap, BodyRef.collider a, BodyRef.collider b,
    (entryAt entries a).desc.user_key, (entryAt entries b).desc.user_key,
    some ⟨o.normal, o.depth, o.contact, ResolutionHint.default⟩, none⟩

/-- The head-on circle pair of the repository's own sweep-event test:
A at `(-2,0)`, radius `1/2`, velocity `(4,0)`; B at the origin at rest. -/
def claim5exEntries : List Entry :=
  [⟨⟨ColliderKind.circle (1/2), ⟨-2, 0⟩, exMask11, some 11⟩, ⟨⟨4, 0⟩⟩⟩,
   ⟨⟨ColliderKind.circle (1/2), ⟨0, 0⟩, exMask11, some 22⟩, ⟨⟨0, 0⟩⟩⟩]

/-- A pair without mutual mask consent (B never collides back). -/
def claim5exMaskEntries : List Entry :=
  [⟨⟨ColliderKind.aabb ⟨1/2, 1/2⟩, ⟨0, 0⟩, ⟨1, 2, 0⟩, none⟩, ⟨⟨1, 0⟩⟩⟩,
   ⟨⟨ColliderKind.aabb ⟨1/2, 1/2⟩, ⟨1/2, 0⟩, ⟨2, 0, 0⟩, none⟩, ⟨⟨0, 0⟩⟩⟩]

/-- The toi-range property of an event's sweep payload. -/
def sweepPayloadOk (ev : Event) : Prop :=
  ∀ s : SweepHit, ev.sweep = some s → 0 ≤ s.toi ∧ s.toi ≤ 1

/-- A tile reference backed by the current tilemap list: the slot holds a
map, the cell is inside that map and the referenced tile is solid. -/
def tileRefValid (tms : List TileMap) (tref : TileRef) : Prop :=
  ∃ m, tms.get? tref.map = some m ∧
    tref.cellX < m.width ∧ tref.cellY < m.height ∧
    solidsGet m (tref.cellY * m.width + tref.cellX) ≠ 0

/-- Every tile reference carried by an event is backed by the given
tilemap list. -/
def eventTileRefsOk (tms : List TileMap) (ev : Event) : Prop :=
  ∀ tref : TileRef,
    ev.a = BodyRef.tile tref ∨ ev.b = BodyRef.tile tref →
    tileRefValid tms tref

/-- C4 example: a 1×1 solid map away from the origin (slot 0)... -/
def claim4exMapA : TileMap := ⟨⟨10, 10⟩, 1, 1, 1, [1], exMask21, some 7⟩

/-- ... and a 1×1 solid map at the origin (slot 1). -/
def claim4exMapB : TileMap := ⟨⟨0, 0⟩, 1, 1, 1, [1], exMask21, some 8⟩

/-- C4 example world holding both maps. -/
def claim4exWorld : World := ⟨exCfg, [], [], [], [claim4exMapA, claim4exMapB], []⟩

/-- C7 example frame: a small filler box on the ray, and a circle whose
`radius` is negative.  `ray_circle` squares the radius, so the circle is
hit like a radius-1 circle (the ray is exactly tangent: `toi = 1/2`),
but `compute_entry_aabb` adds the signed radius to the swept extent, so
the stored AABB — and with it the grid registration — is `[1,2]²`,
which does not contain the disc.  The ray only reaches those cells at
`t_curr = 11/10`. -/
def claim7exWorld : World :=
  endFrame ⟨exCfg,
    [⟨⟨ColliderKind.aabb ⟨1/10, 1/10⟩, ⟨23/10, 2/5⟩, exMask11, some 1⟩, ⟨⟨0, 0⟩⟩⟩,
     ⟨⟨ColliderKind.circle (-1), ⟨0, 0⟩, exMask11, some 2⟩, ⟨⟨3, 3⟩⟩⟩],
    [], [], [], []⟩

lemma Vec2.sub_def (a b : Vec2) : a - b = ⟨a.x - b.x, a.y - b.y⟩ := rfl

lemma Vec2.add_def (a b : Vec2) : a + b = ⟨a.x + b.x, a.y + b.y⟩ := rfl

lemma Vec2.neg_def (a : Vec2) : -a = ⟨-a.x, -a.y⟩ := rfl

lemma Vec2.lengthSquared_def (v : Vec2) :
    v.lengthSquared = v.x * v.x + v.y * v.y := rfl

lemma lengthSquared_sub_comm (a b : Vec2) :
    (a - b).lengthSquared = (b - a).lengthSquared := by
  simp only [Vec2.sub_def, Vec2.lengthSquared_def]
  ring

lemma Vec2.sub_self_eq_zero (a : Vec2) : a - a = Vec2.zero := by
  simp [Vec2.sub_def, Vec2.zero]

lemma intRange_cons (lo hi : ℤ) (h : lo ≤ hi) :
    intRange lo hi = lo :: intRange (lo + 1) hi := by
  unfold intRange
  have h1 : (hi + 1 - lo).toNat = (hi - lo).toNat + 1 := by omega
  have h2 : (hi + 1 - (lo + 1)).toNat = (hi - lo).toNat := by omega
  rw [h1, h2, List.range_succ_eq_map, List.map_cons, List.map_map]
  congr 1
  case _ => norm_num
  case _ =>
    apply List.map_congr_left
    intro j _
    simp only [Function.comp, Int.ofNat_eq_coe]
    push_cast
    ring

-- ---------------------------------------------------------------------------
-- C8: overlap_circle_circle
-- ---------------------------------------------------------------------------

/-- C8.  `overlap_circle_circle(c0, r0, c1, r1)` is total (a total Lean
function) and returns `some` iff `|c1 − c0|² ≤ (r0 + r1)²`; in the
coincident-centre case `c0 = c1` it returns exactly `normal = (0,0)`,
`depth = r0 + r1`, `contact = c0`. -/
theorem claim8_overlap_circle_circle_spec (c0 c1 : Vec2) (r0 r1 : ℚ) :
    ((overlapCircleCircle c0 r0 c1 r1).isSome ↔
      (c1 - c0).lengthSquared ≤ (r0 + r1) * (r0 + r1)) ∧
    (c0 = c1 →
      overlapCircleCircle c0 r0 c1 r1 =
        some ⟨Vec2.zero, r0 + r1, c0, ResolutionHint.default⟩) := by
  have hcomm := lengthSquared_sub_comm c1 c0
  constructor
  · rw [hcomm]
    unfold overlapCircleCircle
    dsimp only
    split_ifs with h1 h2 <;> simp_all
  · intro h
    subst h
    unfold overlapCircleCircle
    dsimp only
    rw [Vec2.sub_self_eq_zero]
    have hz : (Vec2.zero).lengthSquared = 0 := by
      simp [Vec2.zero, Vec2.lengthSquared_def]
    rw [hz]
    have hng : ¬((0 : ℚ) > (r0 + r1) * (r0 + r1)) := by
      nlinarith [sq_nonneg (r0 + r1)]
    simp [hng]

/-- C8 witness: coincident centres at `(1,2)` with radii `1`, `2`. -/
theorem claim8_witness :
    overlapCircleCircle ⟨1, 2⟩ 1 ⟨1, 2⟩ 2 =
      some ⟨Vec2.zero, 3, ⟨1, 2⟩, ResolutionHint.default⟩ := by
  have h := (claim8_overlap_circle_circle_spec ⟨1, 2⟩ ⟨1, 2⟩ 1 2).2 rfl
  rw [h]
  norm_num

-- ---------------------------------------------------------------------------
-- C10: mixed-shape overlap pairs carry zero normal and zero depth
-- ---------------------------------------------------------------------------

/-- C10.  Whenever `overlap_pair` (hence `overlap_by_key` and phase-1
Overlap events) returns a result for a mixed pair — Circle×Aabb in either
order, or any pair involving a Point — that result has `normal = (0,0)`
and `depth = 0`; only Aabb×Aabb and Circle×Circle can carry anything
else. -/
theorem claim10_mixed_overlap_zero (entries : List Entry) (ai bi : ℕ)
    (o : Overlap)
    (hmix : isMixedPair (entryAt entries ai).desc.kind
      (entryAt entries bi).desc.kind = true)
    (h : overlapPairIdx entries ai bi = some o) :
    o.normal = Vec2.zero ∧ o.depth = 0 := by
  unfold overlapPairIdx at h
  dsimp only at h
  rcases hka : (entryAt entries ai).desc.kind with ha | ra | _ <;>
    rcases hkb : (entryAt entries bi).desc.kind with hb | rb | _ <;>
      rw [hka, hkb] at h hmix <;>
        simp only [isMixedPair] at hmix h <;>
          first
            | exact (Bool.false_ne_true hmix).elim
            | (split_ifs at h with hc
               all_goals (cases h; exact ⟨rfl, rfl⟩))
            | (cases h; exact ⟨rfl, rfl⟩)
            | cases h

/-- C10 witness: the deeply interpenetrating Circle×Aabb pair above still
gets `normal = (0,0)`, `depth = 0`. -/
theorem claim10_witness :
    (⟨Vec2.zero, 0, ⟨0, 0⟩, ResolutionHint.default⟩ : Overlap).normal = Vec2.zero ∧
    (⟨Vec2.zero, 0, ⟨0, 0⟩, ResolutionHint.default⟩ : Overlap).depth = 0 :=
  claim10_mixed_overlap_zero claim10exEntries 0 1
    ⟨Vec2.zero, 0, ⟨0, 0⟩, ResolutionHint.default⟩ (by decide)
    (by with_unfolding_all decide)

-- ---------------------------------------------------------------------------
-- Example worlds for concrete evaluations
-- ---------------------------------------------------------------------------

/-- C1 counterexample: `raycast` is part of the claim's quantification,
yet with `max_t = 10` it returns a hit whose `toi = 3/2 > 1` (the filter
at src/world.rs:537 keeps any `toi ∈ [0, max_t]`, not `[0, 1]`). -/
theorem claim1_counterexample :
    (raycast claim1exWorld ⟨0, 0⟩ ⟨1, 0⟩ exMask11 10).map
        (fun r => r.2.1.toi) = some (3/2) ∧
      ¬ ((3 : ℚ)/2 ≤ 1) := by
  constructor
  · with_unfolding_all decide
  · norm_num

/-- On the C3 failing input, every sample position `(1/2 + q, 1/2)` with
`0 ≤ q ≤ 1/2` overlaps the solid tile, and the footprint scan reports
tile `(0,0)` first. -/
lemma claim3_overlap_cond (q : ℚ) (h0 : 0 ≤ q) (h1 : q ≤ 1/2) :
    anyTileOverlapAt 0 claim3exMap ⟨1/2 + q, 1/2⟩ ⟨3/10, 3/10⟩ =
      some ⟨0, 0, 0⟩ := by
  unfold anyTileOverlapAt
  have hcell : max claim3exMap.cell cellClampMin = 1 := by
    norm_num [claim3exMap, cellClampMin]
  rw [hcell]
  have hmn : (⟨1/2 + q, 1/2⟩ : Vec2) - ⟨3/10, 3/10⟩ - claim3exMap.origin =
      ⟨q + 1/5, 1/5⟩ := by
    simp only [claim3exMap, Vec2.sub_def]
    norm_num
    ring
  have hmx : (⟨1/2 + q, 1/2⟩ : Vec2) + ⟨3/10, 3/10⟩ - claim3exMap.origin =
      ⟨q + 4/5, 4/5⟩ := by
    simp only [claim3exMap, Vec2.add_def, Vec2.sub_def]
    norm_num
    ring
  rw [hmn, hmx]
  dsimp only
  have hix0 : (⌊(q + 1/5) / 1⌋ : ℤ) = 0 := by
    rw [div_one, Int.floor_eq_zero_iff]
    constructor <;> simp <;> linarith
  have hiy0 : (⌊((1:ℚ)/5) / 1⌋ : ℤ) = 0 := by
    rw [div_one, Int.floor_eq_zero_iff]
    constructor <;> norm_num
  have hiy1 : (⌊((4:ℚ)/5) / 1⌋ : ℤ) = 0 := by
    rw [div_one, Int.floor_eq_zero_iff]
    constructor <;> norm_num
  rw [hix0, hiy0, hiy1]
  have hix1 : (0:ℤ) ≤ ⌊(q + 4/5) / 1⌋ := by
    rw [div_one]
    positivity
  obtain ⟨k, hk⟩ := Int.eq_ofNat_of_zero_le hix1
  rw [hk]
  have hrect : ∃ rest, cellRect 0 (k : ℤ) 0 0 = ((0, 0) : ℤ × ℤ) :: rest := by
    refine ⟨List.map (fun ix => (ix, (0:ℤ))) (intRange 1 (k : ℤ)), ?_⟩
    show (intRange 0 0).bind _ = _
    have h00 : intRange 0 0 = [0] := by decide
    rw [h00]
    show (intRange 0 (k : ℤ)).map _ ++ [] = _
    rw [List.append_nil, intRange_cons 0 (k : ℤ) (by positivity), List.map_cons]
    norm_num
  obtain ⟨rest, hrect⟩ := hrect
  rw [hrect, List.findSome?_cons]
  have htile : tileAt claim3exMap 0 0 = some 0 := by decide
  rw [htile]
  have hsolid : solidsGet claim3exMap 0 ≠ 0 := by decide
  simp only [hsolid, ne_eq, not_false_eq_true, if_pos]
  have harg : claim3exMap.origin + (⟨((0:ℤ) : ℚ) * 1, ((0:ℤ) : ℚ) * 1⟩ : Vec2) +
      Vec2.splat (1/2) = ⟨1/2, 1/2⟩ := by
    simp [claim3exMap, Vec2.add_def, Vec2.splat]
  rw [harg]
  have hov : (overlapAabbAabb ⟨1/2 + q, 1/2⟩ ⟨3/10, 3/10⟩
      ⟨1/2, 1/2⟩ (Vec2.splat (1/2))).isSome = true := by
    unfold overlapAabbAabb
    have hd : (⟨1/2, 1/2⟩ : Vec2) - ⟨1/2 + q, 1/2⟩ = ⟨-q, 0⟩ := by
      simp only [Vec2.sub_def, Vec2.mk.injEq]
      constructor <;> ring
    rw [hd]
    dsimp only [Vec2.splat]
    have habsx : |(-q)| = q := by
      rw [abs_neg, abs_of_nonneg h0]
    have hcond : ¬((3:ℚ)/10 + 1/2 - |(-q)| < 0 ∨ (3:ℚ)/10 + 1/2 - |(0:ℚ)| < 0) := by
      push_neg
      rw [habsx]
      constructor <;> simp <;> linarith
    rw [if_neg hcond]
    rfl
  rw [if_pos hov]
  rfl

/-- On the C3 failing input, every binary-search midpoint still overlaps,
so the refinement halves `hi` at every one of its iterations. -/
lemma claim3_binRefine (pf : Vec2) : ∀ (fuel : ℕ) (hi : ℚ), 0 < hi →
    hi ≤ 1/2 →
    binRefine 0 claim3exMap ⟨1/2, 1/2⟩ ⟨1, 0⟩ ⟨3/10, 3/10⟩ fuel 0 hi pf =
      (hi / 2 ^ fuel, pf) := by
  intro fuel
  induction fuel with
  | zero =>
    intro hi h0 h1
    unfold binRefine
    norm_num
  | succ n ih =>
    intro hi h0 h1
    unfold binRefine
    dsimp only
    have hpos : (⟨1/2, 1/2⟩ : Vec2) + (⟨1, 0⟩ : Vec2).smul ((0 + hi) / 2) =
        ⟨1/2 + hi/2, 1/2⟩ := by
      simp only [Vec2.smul, Vec2.add_def, Vec2.mk.injEq]
      constructor <;> ring
    rw [hpos, claim3_overlap_cond (hi/2) (by linarith) (by linarith)]
    simp only [Option.isSome_some, if_true]
    have hmid : (0 + hi) / 2 = hi / 2 := by ring
    rw [hmid, ih (hi/2) (by linarith) (by linarith)]
    rw [Prod.mk.injEq]
    constructor
    · ring
    · rfl

/-- Evaluation of the stepped loop on the C3 failing input: the first
sample (`t = 1/2`) already overlaps, the refinement gives
`toi = 1/32768`, and `safe_pos = p0 + d·(toi − 1/10⁴)`. -/
lemma claim3_loop_eval :
    ∃ hit : SweepHit,
      sweepMapLoop 0 claim3exMap ⟨1/2, 1/2⟩ ⟨1, 0⟩ ⟨3/10, 3/10⟩ (1/10^4) 1 2
          2 1 0 ⟨1/2, 1/2⟩ = some (⟨0, 0, 0⟩, hit, some 42) ∧
        hit.hint.safe_pos = some claim3SafePos := by
  unfold sweepMapLoop
  dsimp only
  have hov1 : anyTileOverlapAt 0 claim3exMap
      ((⟨1/2, 1/2⟩ : Vec2) + (⟨1, 0⟩ : Vec2).smul (min (((1:ℕ) : ℚ)/2) 1))
      ⟨3/10, 3/10⟩ = some ⟨0, 0, 0⟩ := by
    have harg : (⟨1/2, 1/2⟩ : Vec2) + (⟨1, 0⟩ : Vec2).smul (min (((1:ℕ) : ℚ)/2) 1) =
        ⟨1/2 + 1/2, 1/2⟩ := by
      simp only [Vec2.smul, Vec2.add_def, Vec2.mk.injEq]
      norm_num
    rw [harg]
    exact claim3_overlap_cond (1/2) (by norm_num) (by norm_num)
  rw [hov1]
  refine ⟨_, rfl, ?_⟩
  show (some ((⟨1/2, 1/2⟩ : Vec2) + (⟨1, 0⟩ : Vec2).smul (_ - 1/10^4)) :
    Option Vec2) = some claim3SafePos
  rw [claim3_binRefine ⟨1/2, 1/2⟩ 14 (min (((1:ℕ) : ℚ)/2) 1) (by norm_num)
    (by norm_num)]
  show some ((⟨1/2, 1/2⟩ : Vec2) +
    (⟨1, 0⟩ : Vec2).smul (min (((1:ℕ) : ℚ)/2) 1 / 2 ^ 14 - 1/10^4)) = _
  have : (⟨1/2, 1/2⟩ : Vec2) +
      (⟨1, 0⟩ : Vec2).smul (min (((1:ℕ) : ℚ)/2) 1 / 2 ^ 14 - 1/10^4) =
        claim3SafePos := by
    simp only [Vec2.smul, Vec2.add_def, claim3SafePos, Vec2.mk.injEq]
    norm_num
  rw [this]

/-- C3 failing input: a `0.3`-half-extent box starting embedded in the
solid tile (centre `(1/2, 1/2)`, velocity `(1,0)`).  The sweep returns
`toi = 1/32768 < tile_eps = 1/10⁴`, so `safe_pos = p0 + d·(toi − eps)`
still lies inside the tile, and `query_aabb_all` at that safe position
returns the tile — contradicting the claim. -/
theorem claim3_safe_pos_violation :
    (sweepAabbTiles claim3exWorld ⟨1/2, 1/2⟩ ⟨3/10, 3/10⟩ ⟨1, 0⟩
        exMask12).bind (fun r => r.2.1.hint.safe_pos) = some claim3SafePos ∧
      queryAabbAll claim3exWorld claim3SafePos ⟨3/10, 3/10⟩ exMask12 =
        [(BodyRef.tile ⟨0, 0, 0⟩, some 42)] := by
  constructor
  · show (sweepTilesGo exCfg exMask12 ⟨1/2, 1/2⟩
        ((⟨1, 0⟩ : Vec2).smul exCfg.dt) ⟨3/10, 3/10⟩
        (max exCfg.tile_eps tileEpsMin) 0 [claim3exMap]).bind
        (fun r => r.2.1.hint.safe_pos) = some claim3SafePos
    have hd : (⟨1, 0⟩ : Vec2).smul exCfg.dt = (⟨1, 0⟩ : Vec2) := by
      simp only [Vec2.smul, exCfg, Vec2.mk.injEq]
      norm_num
    have heps : max exCfg.tile_eps tileEpsMin = 1/10^4 := by
      norm_num [exCfg, tileEpsMin]
    rw [hd, heps]
    unfold sweepTilesGo
    dsimp only
    have hallow : allowsPair exCfg exMask12 claim3exMap.mask = true := by decide
    rw [if_neg (by simp [hallow])]
    have hcell : max claim3exMap.cell cellClampMin = 1 := by
      norm_num [claim3exMap, cellClampMin]
    have hlen : Vec2.length (⟨1, 0⟩ : Vec2) = 1 := by
      with_unfolding_all decide
    rw [hcell, hlen]
    have hstepsF : max ⌈(1:ℚ) / 1⌉ 1 * 2 = (2:ℤ) := by norm_num
    rw [hstepsF]
    have hcast : (((2:ℤ) : ℚ)) = 2 := by norm_num
    have htoNat : (2:ℤ).toNat = 2 := rfl
    rw [hcast, htoNat]
    obtain ⟨hit, hl, hsafe⟩ := claim3_loop_eval
    rw [hl]
    exact hsafe
  · with_unfolding_all decide

-- ---------------------------------------------------------------------------
-- C9: update_tiles
-- ---------------------------------------------------------------------------

/-- C9 failing input: `update_tiles` on rect `(x,y,w,h) = (3,0,1,1)` with
`data.len() = w·h = 1` satisfied.  The first row is inside the map
(`dst_y = 0 < height`), but `x = 3 > width = 2`, so the `u32`
subtraction `m.width - x` underflows and the call panics (modelled as
`none`) instead of clipping — while a row-clipped rectangle `(0,2,1,1)`
and a column-overhanging rectangle `(1,0,2,1)` complete fine. -/
theorem claim9_update_tiles_panics :
    (1 * 1 = ([1] : List ℕ).length) ∧
      updateTiles claim9exWorld 0 (3, 0, 1, 1) [1] = none ∧
      (updateTiles claim9exWorld 0 (0, 2, 1, 1) [1]).isSome = true ∧
      (updateTiles claim9exWorld 0 (1, 0, 2, 1) [1, 1]).map
          (fun w => w.tilemaps.map TileMap.solids) = some [[0, 1, 0, 0]] := by
  refine ⟨rfl, ?_, ?_, ?_⟩ <;> with_unfolding_all decide

-- ---------------------------------------------------------------------------
-- C2: event order depends on the HashMap iteration order
-- ---------------------------------------------------------------------------

/-- C2 failing input: the reversed grid holds exactly the same cells
(a permutation), yet `generate_events` emits the two Overlap events in
the opposite order, so the emitted byte sequence differs.  The source
iterates `HashMap::values`, whose order is not fixed across processes
or hosts. -/
theorem claim2_event_order_depends_on_grid_order :
    claim2exWorldRev.grid.Perm claim2exWorld.grid ∧
      claim2exWorldRev.grid ≠ claim2exWorld.grid ∧
      (generateEvents claim2exWorld).events ≠
        (generateEvents claim2exWorldRev).events := by
  refine ⟨?_, ?_, ?_⟩ <;> with_unfolding_all decide

-- ---------------------------------------------------------------------------
-- C6: the event buffer never exceeds max_events
-- ---------------------------------------------------------------------------

lemma pushEvent_of_full (buf : List Event) (ev : Event) (maxE : ℕ)
    (h : maxE ≤ buf.length) : pushEvent buf ev maxE = buf := by
  unfold pushEvent
  rw [if_neg (by omega)]

lemma pushEvent_length_le (buf : List Event) (ev : Event) (maxE : ℕ)
    (h : buf.length ≤ maxE) : (pushEvent buf ev maxE).length ≤ maxE := by
  unfold pushEvent
  split_ifs with hlt
  · rw [List.length_append]
    simp only [List.length_singleton]
    omega
  · exact h

lemma phase1Step_length_le (cfg : WorldConfig) (entries : List Entry)
    (st : P1State) (p : ℕ × ℕ) (h : st.events.length ≤ cfg.max_events) :
    (phase1Step cfg entries st p).events.length ≤ cfg.max_events := by
  unfold phase1Step
  dsimp only
  split_ifs with h1 h2 h3
  · exact h
  · exact h
  · exact h
  · split
    · exact pushEvent_length_le st.events _ cfg.max_events h
    · exact h

lemma phase1_length_le (cfg : WorldConfig) (entries : List Entry)
    (g : Grid) (events0 : List Event)
    (h : events0.length ≤ cfg.max_events) :
    (phase1 cfg entries g events0).events.length ≤ cfg.max_events := by
  unfold phase1
  generalize allCandidates g = l
  suffices hgen : ∀ (l : List (ℕ × ℕ)) (st : P1State),
      st.events.length ≤ cfg.max_events →
      (l.foldl (phase1Step cfg entries) st).events.length ≤ cfg.max_events by
    exact hgen l ⟨events0, [], false⟩ h
  intro l
  induction l with
  | nil => intro st hst; exact hst
  | cons p rest ih =>
    intro st hst
    exact ih _ (phase1Step_length_le cfg entries st p hst)

lemma phase2Entry_length_le (cfg : WorldConfig) (tms : List TileMap)
    (events : List Event) (i : ℕ) (e : Entry)
    (h : events.length ≤ cfg.max_events) :
    (phase2Entry cfg tms events i e).length ≤ cfg.max_events := by
  unfold phase2Entry
  dsimp only
  split
  · exact pushEvent_length_le events _ cfg.max_events h
  · split_ifs with ho
    · split
      · exact pushEvent_length_le events _ cfg.max_events h
      · exact h
    · exact h

lemma phase2_length_le (cfg : WorldConfig) (tms : List TileMap)
    (entries : List Entry) (events0 : List Event)
    (h : events0.length ≤ cfg.max_events) :
    (phase2 cfg tms entries events0).length ≤ cfg.max_events := by
  unfold phase2
  generalize entries.enum = l
  suffices hgen : ∀ (l : List (ℕ × Entry)) (st : List Event × Bool),
      st.1.length ≤ cfg.max_events →
      ((l.foldl (fun st pr =>
          if st.2 then st
          else
            let ev2 := phase2Entry cfg tms st.1 pr.1 pr.2
            (ev2, cfg.max_events ≤ ev2.length)) st)).1.length ≤
        cfg.max_events by
    exact hgen l (events0, false) h
  intro l
  induction l with
  | nil => intro st hst; exact hst
  | cons pr rest ih =>
    intro st hst
    rw [List.foldl_cons]
    dsimp only
    by_cases hb : st.2
    · rw [if_pos hb]
      exact ih st hst
    · rw [if_neg hb]
      exact ih _ (phase2Entry_length_le cfg tms st.1 pr.1 pr.2 hst)

/-- C6.  The event buffer never exceeds `max_events`: (i) `push_event`
silently drops once the buffer is at capacity (no error — the function
is total and returns the buffer unchanged); (ii) every phase-1 step and
every phase-2 entry preserves `len ≤ max_events` (the "at every point
during" form of the invariant); (iii) `generate_events` as a whole
preserves it. -/
theorem claim6_event_cap :
    (∀ (buf : List Event) (ev : Event) (maxE : ℕ), maxE ≤ buf.length →
      pushEvent buf ev maxE = buf) ∧
    (∀ (cfg : WorldConfig) (entries : List Entry) (st : P1State)
      (p : ℕ × ℕ), st.events.length ≤ cfg.max_events →
      (phase1Step cfg entries st p).events.length ≤ cfg.max_events) ∧
    (∀ (cfg : WorldConfig) (tms : List TileMap) (events : List Event)
      (i : ℕ) (e : Entry), events.length ≤ cfg.max_events →
      (phase2Entry cfg tms events i e).length ≤ cfg.max_events) ∧
    (∀ w : World, w.events.length ≤ w.cfg.max_events →
      (generateEvents w).events.length ≤ w.cfg.max_events) := by
  refine ⟨pushEvent_of_full, phase1Step_length_le, phase2Entry_length_le, ?_⟩
  intro w h
  unfold generateEvents
  dsimp only
  split_ifs with h1 h2
  · exact phase1_length_le w.cfg w.entries w.grid w.events h
  · exact phase2_length_le w.cfg w.tilemaps w.entries _
      (phase1_length_le w.cfg w.entries w.grid w.events h)
  · exact phase1_length_le w.cfg w.entries w.grid w.events h

/-- C6 witness: the three-box example world, buffer initially empty and
strictly below the cap after `generate_events`. -/
theorem claim6_witness :
    pushEvent [] ⟨EventKind.overlap, BodyRef.collider 0, BodyRef.collider 1,
        none, none, none, none⟩ 0 = [] ∧
      (generateEvents claim2exWorld).events.length ≤
        claim2exWorld.cfg.max_events :=
  ⟨claim6_event_cap.1 [] _ 0 (by decide),
   claim6_event_cap.2.2.2 claim2exWorld (by decide)⟩

-- ---------------------------------------------------------------------------
-- C5: phase-1 per-pair event selection
-- ---------------------------------------------------------------------------

lemma processPair_eq (cfg : WorldConfig) (entries : List Entry) (a b : ℕ) :
    processPair cfg entries a b =
      (if allowsPair cfg (entryAt entries a).desc.mask
          (entryAt entries b).desc.mask then
        (if ((entryAt entries a).motion.vel -
              (entryAt entries b).motion.vel).lengthSquared > dynEps ∧
            cfg.enable_sweep_events then
          match sweepPairIdx cfg entries a b with
          | some s => some (mkSweepEvent entries a b s)
          | none =>
            if cfg.enable_overlap_events then
              (overlapPairIdx entries a b).map (mkOverlapEvent entries a b)
            else none
        else
          if cfg.enable_overlap_events then
            (overlapPairIdx entries a b).map (mkOverlapEvent entries a b)
          else none)
      else none) := by
  unfold processPair
  dsimp only
  split_ifs with h1 h2 h3 h4 <;>
    first
      | rfl
      | (cases sweepPairIdx cfg entries a b <;>
          cases hov : overlapPairIdx entries a b <;>
            simp [mkSweepEvent, mkOverlapEvent, mkOverlapEvent, hov])
      | (cases hov : overlapPairIdx entries a b <;>
          simp [mkOverlapEvent, hov])

lemma processPair_key (cfg : WorldConfig) (entries : List Entry) (a b : ℕ)
    (ev : Event) (h : processPair cfg entries a b = some ev) :
    eventPairKey ev = some (pairKey a b) := by
  rw [processPair_eq] at h
  by_cases h1 : allowsPair cfg (entryAt entries a).desc.mask
      (entryAt entries b).desc.mask = true
  case neg => rw [if_neg h1] at h; cases h
  rw [if_pos h1] at h
  have hov_case : ∀ hh :
      (if cfg.enable_overlap_events then
        (overlapPairIdx entries a b).map (mkOverlapEvent entries a b)
      else none) = some ev, eventPairKey ev = some (pairKey a b) := by
    intro hh
    by_cases h3 : cfg.enable_overlap_events = true
    · rw [if_pos h3] at hh
      cases hov : overlapPairIdx entries a b with
      | some o =>
        rw [hov, Option.map_some'] at hh
        cases hh
        rfl
      | none => rw [hov] at hh; cases hh
    · rw [if_neg h3] at hh; cases hh
  by_cases h2 : ((entryAt entries a).motion.vel -
      (entryAt entries b).motion.vel).lengthSquared > dynEps ∧
      cfg.enable_sweep_events = true
  · rw [if_pos h2] at h
    cases hs : sweepPairIdx cfg entries a b with
    | some s =>
      rw [hs] at h
      cases h
      rfl
    | none =>
      rw [hs] at h
      exact hov_case h
  · rw [if_neg h2] at h
    exact hov_case h

lemma countP_eq_zero_of_key_not_mem (cfg : WorldConfig)
    (entries : List Entry) (k : ℕ × ℕ) :
    ∀ processed : List (ℕ × ℕ),
      k ∉ processed.map (fun p => pairKey p.1 p.2) →
      (processed.filterMap
          (fun p => processPair cfg entries p.1 p.2)).countP
        (fun ev => eventPairKey ev == some k) = 0 := by
  intro processed
  induction processed with
  | nil => intro _; rfl
  | cons p rest ih =>
    intro hk
    rw [List.map_cons, List.mem_cons] at hk
    push_neg at hk
    rw [List.filterMap_cons]
    cases hp : processPair cfg entries p.1 p.2 with
    | none => exact ih hk.2
    | some ev =>
      rw [List.countP_cons, ih hk.2]
      have hkey := processPair_key cfg entries p.1 p.2 ev hp
      have hne : (eventPairKey ev == some k) = false := by
        rw [hkey]
        simp only [beq_eq_false_iff_ne, ne_eq, Option.some.injEq]
        exact fun hh => hk.1 hh.symm
      rw [hne]
      rfl

lemma countP_filterMap_le_one (cfg : WorldConfig) (entries : List Entry)
    (k : ℕ × ℕ) :
    ∀ processed : List (ℕ × ℕ),
      (processed.map (fun p => pairKey p.1 p.2)).Nodup →
      (processed.filterMap
          (fun p => processPair cfg entries p.1 p.2)).countP
        (fun ev => eventPairKey ev == some k) ≤ 1 := by
  intro processed
  induction processed with
  | nil => intro _; simp
  | cons p rest ih =>
    intro hnd
    rw [List.map_cons, List.nodup_cons] at hnd
    rw [List.filterMap_cons]
    cases hp : processPair cfg entries p.1 p.2 with
    | none => exact ih hnd.2
    | some ev =>
      rw [List.countP_cons]
      by_cases hk : pairKey p.1 p.2 = k
      · rw [countP_eq_zero_of_key_not_mem cfg entries k rest
          (by rw [← hk]; exact hnd.1)]
        split_ifs <;> omega
      · have hkey := processPair_key cfg entries p.1 p.2 ev hp
        have hne : (eventPairKey ev == some k) = false := by
          rw [hkey]
          simp only [beq_eq_false_iff_ne, ne_eq, Option.some.injEq]
          exact hk
        rw [hne]
        have hle := ih hnd.2
        simp only [Bool.false_eq_true, if_false, Nat.add_zero]
        exact hle

/-- Phase-1 fold invariant: the events are the initial buffer plus the
results of `processPair` over a list of narrowphase-dispatched pairs
whose canonical keys are distinct and recorded in the seen set. -/
lemma phase1_decomposition (cfg : WorldConfig) (entries : List Entry)
    (g : Grid) (ev0 : List Event) :
    ∃ processed : List (ℕ × ℕ),
      (processed.map (fun p => pairKey p.1 p.2)).Nodup ∧
      (phase1 cfg entries g ev0).events =
        ev0 ++ processed.filterMap
          (fun p => processPair cfg entries p.1 p.2) := by
  unfold phase1
  generalize allCandidates g = l
  suffices hgen : ∀ (l : List (ℕ × ℕ)) (st : P1State),
      (∃ processed : List (ℕ × ℕ),
        (processed.map (fun p => pairKey p.1 p.2)).Nodup ∧
        (∀ q ∈ processed, pairKey q.1 q.2 ∈ st.seen) ∧
        st.events = ev0 ++ processed.filterMap
          (fun p => processPair cfg entries p.1 p.2)) →
      ∃ processed : List (ℕ × ℕ),
        (processed.map (fun p => pairKey p.1 p.2)).Nodup ∧
        (l.foldl (phase1Step cfg entries) st).events =
          ev0 ++ processed.filterMap
            (fun p => processPair cfg entries p.1 p.2) by
    obtain ⟨pr, h1, h2⟩ := hgen l ⟨ev0, [], false⟩ ⟨[], by simp, by simp, by simp⟩
    exact ⟨pr, h1, h2⟩
  intro l
  induction l with
  | nil =>
    intro st ⟨pr, h1, _, h3⟩
    exact ⟨pr, h1, h3⟩
  | cons p rest ih =>
    intro st hst
    rw [List.foldl_cons]
    apply ih
    obtain ⟨pr, hnd, hseen, hev⟩ := hst
    unfold phase1Step
    dsimp only
    split_ifs with h1 h2 h3
    · exact ⟨pr, hnd, hseen, hev⟩
    · exact ⟨pr, hnd, hseen, hev⟩
    · exact ⟨pr, hnd, fun q hq => List.mem_cons_of_mem _ (hseen q hq), hev⟩
    · have hnotin : pairKey p.1 p.2 ∉ pr.map (fun q => pairKey q.1 q.2) := by
        intro hmem
        obtain ⟨q, hq, hqk⟩ := List.mem_map.mp hmem
        exact h2 (hqk ▸ hseen q hq)
      have hnd2 : ((pr ++ [p]).map (fun q => pairKey q.1 q.2)).Nodup := by
        rw [List.map_append]
        simp only [List.map_singleton]
        rw [List.nodup_append]
        refine ⟨hnd, List.nodup_singleton _, ?_⟩
        intro x hx
        simp only [List.mem_singleton]
        intro hcon
        exact hnotin (hcon ▸ hx)
      have hseen2 : ∀ q ∈ pr ++ [p],
          pairKey q.1 q.2 ∈ pairKey p.1 p.2 :: st.seen := by
        intro q hq
        rcases List.mem_append.mp hq with hql | hqr
        · exact List.mem_cons_of_mem _ (hseen q hql)
        · rw [List.mem_singleton.mp hqr]
          exact List.mem_cons_self _ _
      cases hp : processPair cfg entries p.1 p.2 with
      | some ev =>
        refine ⟨pr ++ [p], hnd2, hseen2, ?_⟩
        have hpush : pushEvent st.events ev cfg.max_events =
            st.events ++ [ev] := by
          unfold pushEvent
          rw [if_pos (by omega)]
        dsimp only
        rw [hpush, hev, List.filterMap_append, List.append_assoc]
        simp [hp]
      | none =>
        refine ⟨pr ++ [p], hnd2, hseen2, ?_⟩
        dsimp only
        rw [hev, List.filterMap_append]
        simp [hp]

/-- C5.  Phase-1 per-pair discipline: (i) the events appended by phase 1
come from a list of deduplicated candidate pairs, so each canonical pair
contributes at most one event; (ii) a pair without mask consent yields
nothing; (iii) a dynamic pair (`|v_a − v_b|² > 1e-12`) with sweep events
enabled yields a Sweep event exactly on a `sweep_pair` hit; (iv) when
its sweep misses, it falls back to an Overlap event exactly when overlap
events are enabled and `overlap_pair` succeeds; (v) a non-dynamic pair
yields an Overlap event exactly when overlap events are enabled and
`overlap_pair` succeeds. -/
theorem claim5_phase1_selection :
    (∀ (cfg : WorldConfig) (entries : List Entry) (g : Grid)
        (ev0 : List Event) (k : ℕ × ℕ),
      ∃ processed : List (ℕ × ℕ),
        (phase1 cfg entries g ev0).events =
          ev0 ++ processed.filterMap
            (fun p => processPair cfg entries p.1 p.2) ∧
        (processed.filterMap
            (fun p => processPair cfg entries p.1 p.2)).countP
          (fun ev => eventPairKey ev == some k) ≤ 1) ∧
    (∀ (cfg : WorldConfig) (entries : List Entry) (a b : ℕ),
      allowsPair cfg (entryAt entries a).desc.mask
        (entryAt entries b).desc.mask = false →
      processPair cfg entries a b = none) ∧
    (∀ (cfg : WorldConfig) (entries : List Entry) (a b : ℕ) (s : SweepHit),
      allowsPair cfg (entryAt entries a).desc.mask
        (entryAt entries b).desc.mask = true →
      ((entryAt entries a).motion.vel -
        (entryAt entries b).motion.vel).lengthSquared > dynEps →
      cfg.enable_sweep_events = true →
      sweepPairIdx cfg entries a b = some s →
      processPair cfg entries a b = some (mkSweepEvent entries a b s)) ∧
    (∀ (cfg : WorldConfig) (entries : List Entry) (a b : ℕ),
      allowsPair cfg (entryAt entries a).desc.mask
        (entryAt entries b).desc.mask = true →
      ((entryAt entries a).motion.vel -
        (entryAt entries b).motion.vel).lengthSquared > dynEps →
      cfg.enable_sweep_events = true →
      sweepPairIdx cfg entries a b = none →
      processPair cfg entries a b =
        (if cfg.enable_overlap_events then
          (overlapPairIdx entries a b).map (mkOverlapEvent entries a b)
        else none)) ∧
    (∀ (cfg : WorldConfig) (entries : List Entry) (a b : ℕ),
      allowsPair cfg (entryAt entries a).desc.mask
        (entryAt entries b).desc.mask = true →
      ¬(((entryAt entries a).motion.vel -
        (entryAt entries b).motion.vel).lengthSquared > dynEps) →
      processPair cfg entries a b =
        (if cfg.enable_overlap_events then
          (overlapPairIdx entries a b).map (mkOverlapEvent entries a b)
        else none)) := by
  refine ⟨?_, ?_, ?_, ?_, ?_⟩
  · intro cfg entries g ev0 k
    obtain ⟨pr, hnd, hev⟩ := phase1_decomposition cfg entries g ev0
    exact ⟨pr, hev, countP_filterMap_le_one cfg entries k pr hnd⟩
  · intro cfg entries a b h
    rw [processPair_eq, if_neg (by simp [h])]
  · intro cfg entries a b s h1 h2 h3 h4
    rw [processPair_eq, if_pos h1, if_pos ⟨h2, h3⟩, h4]
  · intro cfg entries a b h1 h2 h3 h4
    rw [processPair_eq, if_pos h1, if_pos ⟨h2, h3⟩, h4]
  · intro cfg entries a b h1 h2
    rw [processPair_eq, if_pos h1, if_neg (by tauto)]

/-- C5 witness: the consent-refusing pair yields no event; the head-on
dynamic circle pair yields the Sweep event with `toi = 1/4`. -/
theorem claim5_witness :
    processPair exCfg claim5exMaskEntries 0 1 = none ∧
      processPair exCfg claim5exEntries 0 1 =
        some (mkSweepEvent claim5exEntries 0 1
          ⟨1/4, ⟨-1, 0⟩, ⟨-1/2, 0⟩, ResolutionHint.default⟩) :=
  ⟨claim5_phase1_selection.2.1 exCfg claim5exMaskEntries 0 1 (by decide),
   claim5_phase1_selection.2.2.1 exCfg claim5exEntries 0 1
     ⟨1/4, ⟨-1, 0⟩, ⟨-1/2, 0⟩, ResolutionHint.default⟩ (by decide)
     (by with_unfolding_all decide) rfl (by with_unfolding_all decide)⟩

-- ---------------------------------------------------------------------------
-- C1: toi ranges
-- ---------------------------------------------------------------------------

lemma sweepAabbAabb_toi (c0 h0 v0 c1 h1 v1 : Vec2) (s : SweepHit)
    (h : sweepAabbAabb c0 h0 v0 c1 h1 v1 = some s) :
    0 ≤ s.toi ∧ s.toi ≤ 1 := by
  unfold sweepAabbAabb at h
  dsimp only at h
  split_ifs at h with hv
  cases hr : rayAabb c0 (v0 - v1) (c1 - (h0 + h1)) (c1 + (h0 + h1)) with
  | none => rw [hr] at h; cases h
  | some hit =>
    rw [hr] at h
    dsimp only at h
    split_ifs at h with h2
    push_neg at h2
    cases h
    exact ⟨h2.1, h2.2⟩

lemma sweepCircleAabb_toi (c : Vec2) (r : ℚ) (v boxC boxH boxV : Vec2)
    (s : SweepHit) (h : sweepCircleAabb c r v boxC boxH boxV = some s) :
    0 ≤ s.toi ∧ s.toi ≤ 1 := by
  unfold sweepCircleAabb at h
  dsimp only at h
  split_ifs at h with hv
  cases hr : rayAabb c (v - boxV) (boxC - boxH - Vec2.splat r)
      (boxC + boxH + Vec2.splat r) with
  | none => rw [hr] at h; cases h
  | some hit =>
    rw [hr] at h
    dsimp only at h
    split_ifs at h with h2
    push_neg at h2
    cases h
    exact ⟨h2.1, h2.2⟩

lemma sweepCircleCircle_toi (c0 : Vec2) (r0 : ℚ) (v0 c1 : Vec2) (r1 : ℚ)
    (v1 : Vec2) (s : SweepHit)
    (h : sweepCircleCircle c0 r0 v0 c1 r1 v1 = some s) :
    0 ≤ s.toi ∧ s.toi ≤ 1 := by
  unfold sweepCircleCircle at h
  dsimp only at h
  split_ifs at h with hv
  cases hr : rayCircle c0 (v0 - v1) c1 (r0 + r1) with
  | none => rw [hr] at h; cases h
  | some hit =>
    rw [hr] at h
    dsimp only at h
    split_ifs at h with h2
    push_neg at h2
    cases h
    exact ⟨h2.1, h2.2⟩

lemma sweepPairIdx_toi (cfg : WorldConfig) (entries : List Entry)
    (a b : ℕ) (s : SweepHit) (h : sweepPairIdx cfg entries a b = some s) :
    0 ≤ s.toi ∧ s.toi ≤ 1 := by
  unfold sweepPairIdx at h
  dsimp only at h
  rcases hka : (entryAt entries a).desc.kind with ha | ra | _ <;>
    rcases hkb : (entryAt entries b).desc.kind with hb | rb | _ <;>
      rw [hka, hkb] at h <;> dsimp only at h
  case aabb.aabb => exact sweepAabbAabb_toi _ _ _ _ _ _ s h
  case aabb.circle =>
    cases hr : sweepCircleAabb (entryAt entries b).desc.center rb
        ((entryAt entries b).motion.vel.smul cfg.dt)
        (entryAt entries a).desc.center ha
        ((entryAt entries a).motion.vel.smul cfg.dt) with
    | none => rw [hr] at h; cases h
    | some hit =>
      rw [hr] at h
      cases h
      exact sweepCircleAabb_toi _ _ _ _ _ _ hit hr
  case aabb.point =>
    cases hr : sweepCircleAabb (entryAt entries b).desc.center 0
        ((entryAt entries b).motion.vel.smul cfg.dt)
        (entryAt entries a).desc.center ha
        ((entryAt entries a).motion.vel.smul cfg.dt) with
    | none => rw [hr] at h; cases h
    | some hit =>
      rw [hr] at h
      cases h
      exact sweepCircleAabb_toi _ _ _ _ _ _ hit hr
  case circle.aabb => exact sweepCircleAabb_toi _ _ _ _ _ _ s h
  case circle.circle => exact sweepCircleCircle_toi _ _ _ _ _ _ s h
  case circle.point =>
    cases hr : sweepCircleCircle (entryAt entries b).desc.center 0
        ((entryAt entries b).motion.vel.smul cfg.dt)
        (entryAt entries a).desc.center ra
        ((entryAt entries a).motion.vel.smul cfg.dt) with
    | none => rw [hr] at h; cases h
    | some hit =>
      rw [hr] at h
      cases h
      exact sweepCircleCircle_toi _ _ _ _ _ _ hit hr
  case point.aabb => exact sweepCircleAabb_toi _ _ _ _ _ _ s h
  case point.circle => exact sweepCircleCircle_toi _ _ _ _ _ _ s h
  case point.point => cases h

lemma binRefine_mem (mi : ℕ) (m : TileMap) (p0 d he : Vec2) :
    ∀ (fuel : ℕ) (lo hi : ℚ) (pf : Vec2), 0 ≤ lo → lo ≤ 1 → 0 ≤ hi →
      hi ≤ 1 →
      0 ≤ (binRefine mi m p0 d he fuel lo hi pf).1 ∧
        (binRefine mi m p0 d he fuel lo hi pf).1 ≤ 1 := by
  intro fuel
  induction fuel with
  | zero =>
    intro lo hi pf _ _ h2 h3
    exact ⟨h2, h3⟩
  | succ n ih =>
    intro lo hi pf h0 h1 h2 h3
    unfold binRefine
    dsimp only
    split_ifs
    · exact ih lo ((lo + hi)/2) _ h0 h1 (by linarith) (by linarith)
    · exact ih ((lo + hi)/2) hi _ (by linarith) (by linarith) h2 h3

lemma sweepMapLoop_toi (mi : ℕ) (m : TileMap) (p0 d he : Vec2)
    (eps cellq stepsF : ℚ) (hs : 0 ≤ stepsF) :
    ∀ (fuel i : ℕ) (tPrev : ℚ) (pf : Vec2)
      (r : TileRef × SweepHit × Option ColKey), 0 ≤ tPrev → tPrev ≤ 1 →
      sweepMapLoop mi m p0 d he eps cellq stepsF fuel i tPrev pf = some r →
      0 ≤ r.2.1.toi ∧ r.2.1.toi ≤ 1 := by
  intro fuel
  induction fuel with
  | zero => intro i tPrev pf r _ _ h; cases h
  | succ n ih =>
    intro i tPrev pf r h0 h1 h
    unfold sweepMapLoop at h
    dsimp only at h
    have ht0 : (0:ℚ) ≤ min ((i : ℚ) / stepsF) 1 := by
      rcases eq_or_lt_of_le hs with hz | hp
      · rw [← hz]
        simp
      · exact le_min (div_nonneg (by positivity) (le_of_lt hp)) zero_le_one
    have ht1 : min ((i : ℚ) / stepsF) 1 ≤ 1 := min_le_right _ _
    cases ho : anyTileOverlapAt mi m (p0 + d.smul (min ((i : ℚ) / stepsF) 1))
        he with
    | some tref =>
      rw [ho] at h
      dsimp only at h
      cases h
      dsimp only
      exact binRefine_mem mi m p0 d he 14 tPrev
        (min ((i : ℚ) / stepsF) 1) pf h0 h1 ht0 ht1
    | none =>
      rw [ho] at h
      exact ih (i + 1) _ _ r ht0 ht1 h

lemma sweepTilesGo_toi (cfg : WorldConfig) (mask : LayerMask)
    (p0 d he : Vec2) (eps : ℚ) :
    ∀ (mi : ℕ) (ms : List TileMap) (r : TileRef × SweepHit × Option ColKey),
      sweepTilesGo cfg mask p0 d he eps mi ms = some r →
      0 ≤ r.2.1.toi ∧ r.2.1.toi ≤ 1 := by
  intro mi ms
  induction ms generalizing mi with
  | nil => intro r h; cases h
  | cons m rest ih =>
    intro r h
    unfold sweepTilesGo at h
    dsimp only at h
    by_cases hc : allowsPair cfg mask m.mask = true
    case neg =>
      rw [if_pos (by simp [hc])] at h
      exact ih (mi + 1) r h
    rw [if_neg (by simp [hc])] at h
    · have hsf : (0:ℚ) ≤ ((max ⌈Vec2.length (d) / max m.cell cellClampMin⌉ 1 * 2 : ℤ) : ℚ) := by
        have h1 : (1:ℤ) ≤ max ⌈Vec2.length (d) / max m.cell cellClampMin⌉ 1 :=
          le_max_right _ _
        have : (0:ℤ) ≤ max ⌈Vec2.length (d) / max m.cell cellClampMin⌉ 1 * 2 := by
          nlinarith
        exact_mod_cast this
      cases hl : sweepMapLoop mi m p0 d he eps (max m.cell cellClampMin)
          ((max ⌈Vec2.length (d) / max m.cell cellClampMin⌉ 1 * 2 : ℤ) : ℚ)
          (max ⌈Vec2.length (d) / max m.cell cellClampMin⌉ 1 * 2).toNat 1 0 p0 with
      | some hit =>
        rw [hl] at h
        cases h
        exact sweepMapLoop_toi mi m p0 d he eps _ _ hsf _ _ _ _ r
          le_rfl zero_le_one hl
      | none =>
        rw [hl] at h
        exact ih (mi + 1) r h

lemma raycastCellScan_inv (w : World) (origin dir : Vec2) (maxT : ℚ)
    (mask : LayerMask) (st : List ℕ × Option (ℕ × SweepHit)) (idx : ℕ)
    (hst : ∀ b, st.2 = some b → 0 ≤ b.2.toi ∧ b.2.toi ≤ maxT) :
    ∀ b, (raycastCellScan w origin dir maxT mask st idx).2 = some b →
      0 ≤ b.2.toi ∧ b.2.toi ≤ maxT := by
  intro b hb
  unfold raycastCellScan at hb
  dsimp only at hb
  by_cases h1 : idx ∈ st.1
  case pos =>
    rw [if_pos h1] at hb
    exact hst b hb
  rw [if_neg h1] at hb
  by_cases h2 : (mask.allows (entryAt w.entries idx).desc.mask &&
      (entryAt w.entries idx).desc.mask.allows mask) = true
  case neg =>
    rw [if_pos (by simp [h2])] at hb
    exact hst b hb
  rw [if_neg (by simp [h2])] at hb
  cases hhit : rayTestEntry w origin dir idx with
  | none =>
    rw [hhit] at hb
    exact hst b hb
  | some h =>
    rw [hhit] at hb
    dsimp only at hb
    split_ifs at hb with h3
    · exact hst b hb
    · push_neg at h3
      cases hbest : st.2 with
      | some bb =>
        rw [hbest] at hb
        dsimp only at hb
        split_ifs at hb with h4
        · exact hst b (hbest ▸ hb)
        · cases hb
          exact ⟨h3.1, h3.2⟩
      | none =>
        rw [hbest] at hb
        cases hb
        exact ⟨h3.1, h3.2⟩

lemma raycastScan_fold_inv (w : World) (origin dir : Vec2) (maxT : ℚ)
    (mask : LayerMask) :
    ∀ (l : List ℕ) (st : List ℕ × Option (ℕ × SweepHit)),
      (∀ b, st.2 = some b → 0 ≤ b.2.toi ∧ b.2.toi ≤ maxT) →
      ∀ b, (l.foldl (raycastCellScan w origin dir maxT mask) st).2 = some b →
        0 ≤ b.2.toi ∧ b.2.toi ≤ maxT := by
  intro l
  induction l with
  | nil => intro st hst; exact hst
  | cons i rest ih =>
    intro st hst
    rw [List.foldl_cons]
    exact ih _ (raycastCellScan_inv w origin dir maxT mask st i hst)

lemma raycastLoop_inv (w : World) (origin dir : Vec2) (maxT : ℚ)
    (mask : LayerMask) (stepX stepY : ℤ) (tDeltaX tDeltaY : Option ℚ)
    (cs : ℚ) :
    ∀ (fuel : ℕ) (cell : ℤ × ℤ) (tmx tmy : Option ℚ) (tc : ℚ)
      (st : List ℕ × Option (ℕ × SweepHit)),
      (∀ b, st.2 = some b → 0 ≤ b.2.toi ∧ b.2.toi ≤ maxT) →
      ∀ b, (raycastLoop w origin dir maxT mask stepX stepY tDeltaX tDeltaY cs
          fuel cell tmx tmy tc st).2 = some b →
        0 ≤ b.2.toi ∧ b.2.toi ≤ maxT := by
  intro fuel
  induction fuel with
  | zero => intro cell tmx tmy tc st hst; exact hst
  | succ n ih =>
    intro cell tmx tmy tc st hst
    unfold raycastLoop
    dsimp only
    have hmid : ∀ b, ((match gridGet w.grid cell with
        | none => st
        | some list =>
          list.foldl (raycastCellScan w origin dir maxT mask) st)).2 =
        some b → 0 ≤ b.2.toi ∧ b.2.toi ≤ maxT := by
      cases hg : gridGet w.grid cell with
      | none => exact hst
      | some list =>
        exact raycastScan_fold_inv w origin dir maxT mask list st hst
    split_ifs with h1 h2
    · exact hst
    · exact ih _ _ _ _ _ hmid
    · exact ih _ _ _ _ _ hmid

lemma raycastCore_toi (w : World) (origin dir : Vec2) (mask : LayerMask)
    (maxT : ℚ) (b : ℕ × SweepHit)
    (h : raycastCore w origin dir mask maxT = some b) :
    0 ≤ b.2.toi ∧ b.2.toi ≤ maxT := by
  unfold raycastCore at h
  dsimp only at h
  exact raycastLoop_inv w origin dir maxT mask _ _ _ _ _ 10000 _ _ _ 0
    ([], none) (by intro b hb; cases hb) b h

lemma raycast_toi (w : World) (origin dir : Vec2) (mask : LayerMask)
    (maxT : ℚ) (r : FrameId × SweepHit × Option ColKey)
    (h : raycast w origin dir mask maxT = some r) :
    0 ≤ r.2.1.toi ∧ r.2.1.toi ≤ maxT := by
  unfold raycast at h
  split_ifs at h with h1
  cases hres : raycastCore w origin dir mask maxT with
  | none => rw [hres] at h; cases h
  | some b =>
    rw [hres] at h
    cases h
    exact raycastCore_toi w origin dir mask maxT b hres

lemma rayTilesLoop_toi (cfg : WorldConfig) (mi : ℕ) (m : TileMap)
    (origin dir : Vec2) (maxT eps : ℚ) (mask : LayerMask) (stepX stepY : ℤ)
    (tDeltaX tDeltaY : Option ℚ) (hmax : 0 ≤ maxT) :
    ∀ (fuel : ℕ) (cx cy : ℤ) (tmx tmy : Option ℚ) (tc : ℚ)
      (lax : Option Bool) (r : TileRef × SweepHit × Option ColKey),
      rayTilesLoop cfg mi m origin dir maxT eps mask stepX stepY tDeltaX
        tDeltaY fuel cx cy tmx tmy tc lax = some r →
      0 ≤ r.2.1.toi ∧ r.2.1.toi ≤ maxT := by
  intro fuel
  induction fuel with
  | zero => intro cx cy tmx tmy tc lax r h; cases h
  | succ n ih =>
    intro cx cy tmx tmy tc lax r h
    unfold rayTilesLoop at h
    dsimp only at h
    split_ifs at h with h1 <;>
      first
        | (cases h
           exact ⟨le_max_right _ _, max_le (not_lt.mp h1) hmax⟩)
        | exact ih _ _ _ _ _ _ r h
        | exact False.elim (by assumption)

lemma rayTilesGo_toi (cfg : WorldConfig) (origin dir : Vec2) (maxT : ℚ)
    (mask : LayerMask) (hmax : 0 ≤ maxT) :
    ∀ (mi : ℕ) (ms : List TileMap)
      (best : Option (TileRef × SweepHit × Option ColKey)),
      (∀ r, best = some r → 0 ≤ r.2.1.toi ∧ r.2.1.toi ≤ maxT) →
      ∀ r, rayTilesGo cfg origin dir maxT mask mi ms best = some r →
        0 ≤ r.2.1.toi ∧ r.2.1.toi ≤ maxT := by
  intro mi ms
  induction ms generalizing mi with
  | nil => intro best hbest r h; exact hbest r h
  | cons m rest ih =>
    intro best hbest r h
    unfold rayTilesGo at h
    dsimp only at h
    refine ih (mi + 1) _ ?_ r h
    intro r2 h2
    cases ho : rayTilesOneMap cfg mi m origin dir maxT mask with
    | none =>
      rw [ho] at h2
      exact hbest r2 h2
    | some hit =>
      rw [ho] at h2
      have hhit : 0 ≤ hit.2.1.toi ∧ hit.2.1.toi ≤ maxT := by
        unfold rayTilesOneMap at ho
        exact rayTilesLoop_toi cfg mi m origin dir maxT _ mask _ _ _ _ hmax
          20000 _ _ _ _ 0 none hit ho
      cases hb : best with
      | some bh =>
        rw [hb] at h2
        dsimp only at h2
        split_ifs at h2 with h3
        · exact hbest r2 (hb ▸ h2)
        · cases h2
          exact hhit
      | none =>
        rw [hb] at h2
        cases h2
        exact hhit

lemma raycastTilesInternal_toi (cfg : WorldConfig) (tms : List TileMap)
    (origin dir : Vec2) (maxT : ℚ) (mask : LayerMask) (hmax : 0 ≤ maxT)
    (r : TileRef × SweepHit × Option ColKey)
    (h : raycastTilesInternal cfg tms origin dir maxT mask = some r) :
    0 ≤ r.2.1.toi ∧ r.2.1.toi ≤ maxT := by
  unfold raycastTilesInternal at h
  split_ifs at h with h1
  exact rayTilesGo_toi cfg origin dir maxT mask hmax 0 tms none
    (by intro r2 h2; cases h2) r h

lemma processPair_sweep_toi (cfg : WorldConfig) (entries : List Entry)
    (a b : ℕ) (ev : Event) (h : processPair cfg entries a b = some ev) :
    sweepPayloadOk ev := by
  intro s hs
  rw [processPair_eq] at h
  by_cases h1 : allowsPair cfg (entryAt entries a).desc.mask
      (entryAt entries b).desc.mask = true
  case neg => rw [if_neg h1] at h; cases h
  rw [if_pos h1] at h
  have hov_case : ∀ hh :
      (if cfg.enable_overlap_events then
        (overlapPairIdx entries a b).map (mkOverlapEvent entries a b)
      else none) = some ev, 0 ≤ s.toi ∧ s.toi ≤ 1 := by
    intro hh
    by_cases h3 : cfg.enable_overlap_events = true
    · rw [if_pos h3] at hh
      cases hov : overlapPairIdx entries a b with
      | some o =>
        rw [hov, Option.map_some'] at hh
        cases hh
        unfold mkOverlapEvent at hs
        cases hs
      | none => rw [hov] at hh; cases hh
    · rw [if_neg h3] at hh; cases hh
  by_cases h2 : ((entryAt entries a).motion.vel -
      (entryAt entries b).motion.vel).lengthSquared > dynEps ∧
      cfg.enable_sweep_events = true
  · rw [if_pos h2] at h
    cases hsw : sweepPairIdx cfg entries a b with
    | some s0 =>
      rw [hsw] at h
      cases h
      obtain ⟨hb0, hb1⟩ := sweepPairIdx_toi cfg entries a b s0 hsw
      unfold mkSweepEvent at hs
      cases hs
      exact ⟨hb0, hb1⟩
    | none =>
      rw [hsw] at h
      exact hov_case h
  · rw [if_neg h2] at h
    exact hov_case h

lemma mem_pushEvent (buf : List Event) (ev : Event) (maxE : ℕ) (x : Event)
    (h : x ∈ pushEvent buf ev maxE) : x ∈ buf ∨ x = ev := by
  unfold pushEvent at h
  split_ifs at h
  · rcases List.mem_append.mp h with hl | hr
    · exact Or.inl hl
    · exact Or.inr (List.mem_singleton.mp hr)
  · exact Or.inl h

lemma phase2OverlapEvent_sweep_none (cfg : WorldConfig)
    (tms : List TileMap) (i : ℕ) (e : Entry) (he : Vec2) (ev : Event)
    (h : phase2OverlapEvent cfg tms i e he = some ev) : ev.sweep = none := by
  unfold phase2OverlapEvent at h
  obtain ⟨pr, _, hpr⟩ := List.exists_of_findSome?_eq_some h
  dsimp only at hpr
  by_cases hal : allowsPair cfg e.desc.mask pr.2.mask = true
  case neg =>
    rw [if_pos (by simp [hal])] at hpr
    cases hpr
  rw [if_neg (by simp [hal])] at hpr
  cases ho : anyTileOverlapAt pr.1 pr.2 e.desc.center he with
  | none => rw [ho] at hpr; cases hpr
  | some tref =>
    rw [ho] at hpr
    dsimp only at hpr
    cases hpr
    rfl

lemma phase2Entry_mem (cfg : WorldConfig) (tms : List TileMap)
    (events : List Event) (i : ℕ) (e : Entry) (x : Event)
    (h : x ∈ phase2Entry cfg tms events i e) :
    x ∈ events ∨ sweepPayloadOk x := by
  unfold phase2Entry at h
  dsimp only at h
  by_cases hcond : e.motion.vel.lengthSquared > dynEps ∧
      cfg.enable_sweep_events = true
  · rw [if_pos hcond] at h
    cases hsst : sweepShapeTiles cfg tms e.desc.center
        (halfExtentsOfKind e.desc.kind) e.motion.vel e.desc.mask with
    | some r =>
      rw [hsst] at h
      dsimp only at h
      rcases mem_pushEvent events _ cfg.max_events x h with hl | hr
      · exact Or.inl hl
      · refine Or.inr ?_
        intro s hs
        rw [hr] at hs
        dsimp only at hs
        cases hs
        have := sweepTilesGo_toi cfg e.desc.mask e.desc.center
          (e.motion.vel.smul cfg.dt) (halfExtentsOfKind e.desc.kind)
          (max cfg.tile_eps tileEpsMin) 0 tms r hsst
        exact this
    | none =>
      rw [hsst] at h
      dsimp only at h
      split_ifs at h with ho
      · cases hov : phase2OverlapEvent cfg tms i e
            (halfExtentsOfKind e.desc.kind) with
        | some ev =>
          rw [hov] at h
          rcases mem_pushEvent events ev cfg.max_events x h with hl | hr
          · exact Or.inl hl
          · refine Or.inr ?_
            intro s hs
            rw [hr] at hs
            rw [phase2OverlapEvent_sweep_none cfg tms i e _ ev hov] at hs
            cases hs
        | none =>
          rw [hov] at h
          exact Or.inl h
      · exact Or.inl h
  · rw [if_neg hcond] at h
    dsimp only at h
    split_ifs at h with ho
    · cases hov : phase2OverlapEvent cfg tms i e
          (halfExtentsOfKind e.desc.kind) with
      | some ev =>
        rw [hov] at h
        rcases mem_pushEvent events ev cfg.max_events x h with hl | hr
        · exact Or.inl hl
        · refine Or.inr ?_
          intro s hs
          rw [hr] at hs
          rw [phase2OverlapEvent_sweep_none cfg tms i e _ ev hov] at hs
          cases hs
      | none =>
        rw [hov] at h
        exact Or.inl h
    · exact Or.inl h

lemma phase2_fold_mem (cfg : WorldConfig) (tms : List TileMap)
    (ev0 : List Event) :
    ∀ (l : List (ℕ × Entry)) (st : List Event × Bool),
      (∀ y ∈ st.1, y ∈ ev0 ∨ sweepPayloadOk y) →
      ∀ x ∈ (l.foldl
        (fun (st : List Event × Bool) pr =>
          if st.2 then st
          else
            let ev2 := phase2Entry cfg tms st.1 pr.1 pr.2
            (ev2, cfg.max_events ≤ ev2.length)) st).1,
        x ∈ ev0 ∨ sweepPayloadOk x := by
  intro l
  induction l with
  | nil => intro st hst x hx; exact hst x hx
  | cons p rest ih =>
    intro st hst x hx
    rw [List.foldl_cons] at hx
    refine ih _ ?_ x hx
    intro y hy
    dsimp only at hy
    by_cases hb : st.2 = true
    · rw [if_pos hb] at hy
      exact hst y hy
    · rw [if_neg hb] at hy
      dsimp only at hy
      rcases phase2Entry_mem cfg tms st.1 p.1 p.2 y hy with hl | hr
      · exact hst y hl
      · exact Or.inr hr

lemma phase2_mem (cfg : WorldConfig) (tms : List TileMap)
    (entries : List Entry) (ev0 : List Event) (x : Event)
    (h : x ∈ phase2 cfg tms entries ev0) : x ∈ ev0 ∨ sweepPayloadOk x := by
  unfold phase2 at h
  exact phase2_fold_mem cfg tms ev0 entries.enum (ev0, false)
    (fun y hy => Or.inl hy) x h

lemma phase1_mem (cfg : WorldConfig) (entries : List Entry) (g : Grid)
    (ev0 : List Event) (x : Event)
    (h : x ∈ (phase1 cfg entries g ev0).events) :
    x ∈ ev0 ∨ sweepPayloadOk x := by
  obtain ⟨pr, _, hev⟩ := phase1_decomposition cfg entries g ev0
  rw [hev] at h
  rcases List.mem_append.mp h with hl | hr
  · exact Or.inl hl
  · obtain ⟨p, _, hp⟩ := List.mem_filterMap.mp hr
    exact Or.inr (processPair_sweep_toi cfg entries p.1 p.2 x hp)

lemma generateEvents_mem (w : World) (x : Event)
    (h : x ∈ (generateEvents w).events) :
    x ∈ w.events ∨ sweepPayloadOk x := by
  unfold generateEvents at h
  dsimp only at h
  split_ifs at h with h1 h2
  · exact phase1_mem w.cfg w.entries w.grid w.events x h
  · rcases phase2_mem w.cfg w.tilemaps w.entries _ x h with hl | hr
    · exact phase1_mem w.cfg w.entries w.grid w.events x hl
    · exact Or.inr hr
  · exact phase1_mem w.cfg w.entries w.grid w.events x h

lemma sweepShapeTiles_toi (cfg : WorldConfig) (tms : List TileMap)
    (center he vel : Vec2) (mask : LayerMask)
    (r : TileRef × SweepHit × Option ColKey)
    (h : sweepShapeTiles cfg tms center he vel mask = some r) :
    0 ≤ r.2.1.toi ∧ r.2.1.toi ≤ 1 := by
  unfold sweepShapeTiles at h
  exact sweepTilesGo_toi cfg mask center (vel.smul cfg.dt) he
    (max cfg.tile_eps tileEpsMin) 0 tms r h

lemma sweepByKey_toi (w : World) (a b : ColKey) (s : SweepHit)
    (h : sweepByKey w a b = some s) : 0 ≤ s.toi ∧ s.toi ≤ 1 := by
  unfold sweepByKey at h
  cases ha : keyToId w.entries a with
  | none => rw [ha] at h; cases h
  | some ia =>
    cases hb : keyToId w.entries b with
    | none => rw [ha, hb] at h; cases h
    | some ib =>
      rw [ha, hb] at h
      exact sweepPairIdx_toi w.cfg w.entries ia ib s h

lemma raycastAll_toi (w : World) (origin dir : Vec2) (mask : LayerMask)
    (maxT : ℚ) (hmax : 0 ≤ maxT) (r : BodyRef × SweepHit × Option ColKey)
    (h : raycastAll w origin dir mask maxT = some r) :
    0 ≤ r.2.1.toi ∧ r.2.1.toi ≤ maxT := by
  unfold raycastAll at h
  dsimp only at h
  cases hti : raycastTilesInternal w.cfg w.tilemaps origin dir maxT mask with
  | none =>
    rw [hti] at h
    cases hrc : raycast w origin dir mask maxT with
    | none => rw [hrc] at h; cases h
    | some r0 =>
      rw [hrc] at h
      cases h
      exact raycast_toi w origin dir mask maxT r0 hrc
  | some rt =>
    rw [hti] at h
    cases hrc : raycast w origin dir mask maxT with
    | none =>
      rw [hrc] at h
      cases h
      exact raycastTilesInternal_toi w.cfg w.tilemaps origin dir maxT mask
        hmax rt hti
    | some r0 =>
      rw [hrc] at h
      dsimp only at h
      split_ifs at h with hcmp
      · cases h
        exact raycast_toi w origin dir mask maxT r0 hrc
      · cases h
        exact raycastTilesInternal_toi w.cfg w.tilemaps origin dir maxT mask
          hmax rt hti

/-- C1 (amended): every `SweepHit` returned through the public surface
carries a `toi` in the documented range — `[0, 1]` for the sweep family
(`sweep_pair`, `sweep_by_key`, `sweep_aabb_tiles`, `sweep_circle_tiles`)
and for the sweep payload of every event newly produced by
`generate_events`; for the raycast family (`raycast`, `raycast_tiles`,
`raycast_all`) the range is `[0, max_t]` rather than `[0, 1]`: hits whose
toi falls outside the respective range are discarded, not returned. -/
theorem claim1_toi_ranges :
    (∀ (w : World) (a b : FrameId) (s : SweepHit),
      sweepPair w a b = some s → 0 ≤ s.toi ∧ s.toi ≤ 1) ∧
    (∀ (w : World) (a b : ColKey) (s : SweepHit),
      sweepByKey w a b = some s → 0 ≤ s.toi ∧ s.toi ≤ 1) ∧
    (∀ (w : World) (center he vel : Vec2) (mask : LayerMask)
      (r : TileRef × SweepHit × Option ColKey),
      sweepAabbTiles w center he vel mask = some r →
        0 ≤ r.2.1.toi ∧ r.2.1.toi ≤ 1) ∧
    (∀ (w : World) (center : Vec2) (radius : ℚ) (vel : Vec2)
      (mask : LayerMask) (r : TileRef × SweepHit × Option ColKey),
      sweepCircleTiles w center radius vel mask = some r →
        0 ≤ r.2.1.toi ∧ r.2.1.toi ≤ 1) ∧
    (∀ (w : World) (ev : Event) (s : SweepHit),
      ev ∈ (generateEvents w).events → ev ∉ w.events →
        ev.sweep = some s → 0 ≤ s.toi ∧ s.toi ≤ 1) ∧
    (∀ (w : World) (origin dir : Vec2) (mask : LayerMask) (maxT : ℚ)
      (r : FrameId × SweepHit × Option ColKey),
      raycast w origin dir mask maxT = some r →
        0 ≤ r.2.1.toi ∧ r.2.1.toi ≤ maxT) ∧
    (∀ (w : World) (origin dir : Vec2) (maxT : ℚ) (mask : LayerMask)
      (r : TileRef × SweepHit × Option ColKey), 0 ≤ maxT →
      raycastTiles w origin dir maxT mask = some r →
        0 ≤ r.2.1.toi ∧ r.2.1.toi ≤ maxT) ∧
    (∀ (w : World) (origin dir : Vec2) (mask : LayerMask) (maxT : ℚ)
      (r : BodyRef × SweepHit × Option ColKey), 0 ≤ maxT →
      raycastAll w origin dir mask maxT = some r →
        0 ≤ r.2.1.toi ∧ r.2.1.toi ≤ maxT) := by
  refine ⟨?_, ?_, ?_, ?_, ?_, ?_, ?_, ?_⟩
  · intro w a b s h
    exact sweepPairIdx_toi w.cfg w.entries a b s h
  · intro w a b s h
    exact sweepByKey_toi w a b s h
  · intro w center he vel mask r h
    exact sweepShapeTiles_toi w.cfg w.tilemaps center he vel mask r h
  · intro w center radius vel mask r h
    exact sweepShapeTiles_toi w.cfg w.tilemaps center (Vec2.splat radius)
      vel mask r h
  · intro w ev s hmem hnot hs
    rcases generateEvents_mem w ev hmem with hl | hr
    · exact absurd hl hnot
    · exact hr s hs
  · intro w origin dir mask maxT r h
    exact raycast_toi w origin dir mask maxT r h
  · intro w origin dir maxT mask r hmax h
    exact raycastTilesInternal_toi w.cfg w.tilemaps origin dir maxT mask
      hmax r h
  · intro w origin dir mask maxT r hmax h
    exact raycastAll_toi w origin dir mask maxT hmax r h

/-- C1 witness: the concrete raycast of the counterexample frame returns
a hit with `toi = 3/2`, and the amended theorem places it in `[0, 10]`. -/
theorem claim1_witness :
    raycast claim1exWorld ⟨0, 0⟩ ⟨1, 0⟩ exMask11 10 =
        some (0, ⟨3/2, ⟨-1, 0⟩, ⟨3/2, 0⟩, ⟨none, false, false⟩⟩, some 1) ∧
      0 ≤ (3 : ℚ)/2 ∧ (3 : ℚ)/2 ≤ 10 := by
  have hr : raycast claim1exWorld ⟨0, 0⟩ ⟨1, 0⟩ exMask11 10 =
      some (0, ⟨3/2, ⟨-1, 0⟩, ⟨3/2, 0⟩, ⟨none, false, false⟩⟩, some 1) := by
    with_unfolding_all decide
  exact ⟨hr, claim1_toi_ranges.2.2.2.2.2.1 claim1exWorld ⟨0, 0⟩ ⟨1, 0⟩
    exMask11 10 _ hr⟩

lemma tileAt_bounds (m : TileMap) (ix iy : ℤ) (idx : ℕ)
    (h : tileAt m ix iy = some idx) :
    ix.toNat < m.width ∧ iy.toNat < m.height ∧
      idx = iy.toNat * m.width + ix.toNat := by
  unfold tileAt at h
  dsimp only at h
  split_ifs at h with h1 h2
  all_goals (cases h)
  push_neg at h2
  exact ⟨h2.1, h2.2, rfl⟩

lemma anyTileOverlapAt_sound (mi : ℕ) (m : TileMap) (center he : Vec2)
    (tref : TileRef) (h : anyTileOverlapAt mi m center he = some tref) :
    tref.map = mi ∧ tref.cellX < m.width ∧ tref.cellY < m.height ∧
      solidsGet m (tref.cellY * m.width + tref.cellX) ≠ 0 := by
  unfold anyTileOverlapAt at h
  dsimp only at h
  obtain ⟨c, _, hc⟩ := List.exists_of_findSome?_eq_some h
  cases ht : tileAt m c.1 c.2 with
  | none => rw [ht] at hc; cases hc
  | some idx =>
    rw [ht] at hc
    dsimp only at hc
    split_ifs at hc with hs hov
    all_goals (cases hc)
    obtain ⟨hx, hy, hidx⟩ := tileAt_bounds m c.1 c.2 idx ht
    subst hidx
    exact ⟨rfl, hx, hy, by assumption⟩

lemma sweepMapLoop_sound (mi : ℕ) (m : TileMap) (p0 d he : Vec2)
    (eps cellq stepsF : ℚ) :
    ∀ (fuel i : ℕ) (tPrev : ℚ) (pf : Vec2)
      (r : TileRef × SweepHit × Option ColKey),
      sweepMapLoop mi m p0 d he eps cellq stepsF fuel i tPrev pf = some r →
      r.1.map = mi ∧ r.1.cellX < m.width ∧ r.1.cellY < m.height ∧
        solidsGet m (r.1.cellY * m.width + r.1.cellX) ≠ 0 := by
  intro fuel
  induction fuel with
  | zero => intro i tPrev pf r h; cases h
  | succ n ih =>
    intro i tPrev pf r h
    unfold sweepMapLoop at h
    dsimp only at h
    cases ho : anyTileOverlapAt mi m (p0 + d.smul (min ((i : ℚ) / stepsF) 1))
        he with
    | some tref =>
      rw [ho] at h
      dsimp only at h
      cases h
      exact anyTileOverlapAt_sound mi m _ he tref ho
    | none =>
      rw [ho] at h
      exact ih (i + 1) _ _ r h

lemma sweepTilesGo_sound (cfg : WorldConfig) (mask : LayerMask)
    (p0 d he : Vec2) (eps : ℚ) (tms : List TileMap) :
    ∀ (mi : ℕ) (ms : List TileMap),
      (∀ k : ℕ, ms.get? k = tms.get? (mi + k)) →
      ∀ r : TileRef × SweepHit × Option ColKey,
        sweepTilesGo cfg mask p0 d he eps mi ms = some r →
        tileRefValid tms r.1 := by
  intro mi ms
  induction ms generalizing mi with
  | nil => intro _ r h; cases h
  | cons m rest ih =>
    intro hsuf r h
    have hsuf2 : ∀ k : ℕ, rest.get? k = tms.get? (mi + 1 + k) := by
      intro k
      rw [show mi + 1 + k = mi + (k + 1) by omega]
      exact hsuf (k + 1)
    have hhead : tms.get? mi = some m := by
      have h0 := (hsuf 0).symm
      rw [Nat.add_zero] at h0
      exact h0
    unfold sweepTilesGo at h
    dsimp only at h
    by_cases hc : allowsPair cfg mask m.mask = true
    case neg =>
      rw [if_pos (by simp [hc])] at h
      exact ih (mi + 1) hsuf2 r h
    rw [if_neg (by simp [hc])] at h
    cases hl : sweepMapLoop mi m p0 d he eps (max m.cell cellClampMin)
        ((max ⌈Vec2.length (d) / max m.cell cellClampMin⌉ 1 * 2 : ℤ) : ℚ)
        (max ⌈Vec2.length (d) / max m.cell cellClampMin⌉ 1 * 2).toNat 1 0 p0 with
    | some hit =>
      rw [hl] at h
      cases h
      obtain ⟨hm, hx, hy, hsolid⟩ :=
        sweepMapLoop_sound mi m p0 d he eps _ _ _ _ _ _ r hl
      exact ⟨m, hm ▸ hhead, hx, hy, hsolid⟩
    | none =>
      rw [hl] at h
      exact ih (mi + 1) hsuf2 r h

lemma sweepShapeTiles_sound (cfg : WorldConfig) (tms : List TileMap)
    (center he vel : Vec2) (mask : LayerMask)
    (r : TileRef × SweepHit × Option ColKey)
    (h : sweepShapeTiles cfg tms center he vel mask = some r) :
    tileRefValid tms r.1 := by
  unfold sweepShapeTiles at h
  exact sweepTilesGo_sound cfg mask center (vel.smul cfg.dt) he
    (max cfg.tile_eps tileEpsMin) tms 0 tms
    (fun k => by rw [Nat.zero_add]) r h

lemma rayTilesLoop_sound (cfg : WorldConfig) (mi : ℕ) (m : TileMap)
    (origin dir : Vec2) (maxT eps : ℚ) (mask : LayerMask) (stepX stepY : ℤ)
    (tDeltaX tDeltaY : Option ℚ) :
    ∀ (fuel : ℕ) (cx cy : ℤ) (tmx tmy : Option ℚ) (tc : ℚ)
      (lax : Option Bool) (r : TileRef × SweepHit × Option ColKey),
      rayTilesLoop cfg mi m origin dir maxT eps mask stepX stepY tDeltaX
        tDeltaY fuel cx cy tmx tmy tc lax = some r →
      r.1.map = mi ∧ r.1.cellX < m.width ∧ r.1.cellY < m.height ∧
        solidsGet m (r.1.cellY * m.width + r.1.cellX) ≠ 0 := by
  intro fuel
  induction fuel with
  | zero => intro cx cy tmx tmy tc lax r h; cases h
  | succ n ih =>
    intro cx cy tmx tmy tc lax r h
    unfold rayTilesLoop at h
    dsimp only at h
    by_cases h1 : tc > maxT
    · rw [if_pos h1] at h; cases h
    rw [if_neg h1] at h
    by_cases h2 : 0 ≤ cx ∧ 0 ≤ cy ∧ cx.toNat < m.width ∧ cy.toNat < m.height
    · rw [if_pos h2] at h
      by_cases h3 : (solidsGet m (cy.toNat * m.width + cx.toNat) ≠ 0 &&
          allowsPair cfg mask m.mask) = true
      · rw [if_pos h3] at h
        cases h
        refine ⟨rfl, h2.2.2.1, h2.2.2.2, ?_⟩
        have h3p := (Bool.and_eq_true _ _).mp h3
        exact of_decide_eq_true h3p.1
      · rw [if_neg h3] at h
        by_cases h4 : ltInf tmx tmy = true
        · rw [if_pos h4] at h
          exact ih _ _ _ _ _ _ r h
        · rw [if_neg h4] at h
          exact ih _ _ _ _ _ _ r h
    · rw [if_neg h2] at h
      rw [if_neg Bool.false_ne_true] at h
      by_cases h4 : ltInf tmx tmy = true
      · rw [if_pos h4] at h
        exact ih _ _ _ _ _ _ r h
      · rw [if_neg h4] at h
        exact ih _ _ _ _ _ _ r h

lemma rayTilesGo_sound (cfg : WorldConfig) (origin dir : Vec2) (maxT : ℚ)
    (mask : LayerMask) (tms : List TileMap) :
    ∀ (mi : ℕ) (ms : List TileMap)
      (best : Option (TileRef × SweepHit × Option ColKey)),
      (∀ k : ℕ, ms.get? k = tms.get? (mi + k)) →
      (∀ r, best = some r → tileRefValid tms r.1) →
      ∀ r, rayTilesGo cfg origin dir maxT mask mi ms best = some r →
        tileRefValid tms r.1 := by
  intro mi ms
  induction ms generalizing mi with
  | nil => intro best _ hbest r h; exact hbest r h
  | cons m rest ih =>
    intro best hsuf hbest r h
    have hsuf2 : ∀ k : ℕ, rest.get? k = tms.get? (mi + 1 + k) := by
      intro k
      rw [show mi + 1 + k = mi + (k + 1) by omega]
      exact hsuf (k + 1)
    have hhead : tms.get? mi = some m := by
      have h0 := (hsuf 0).symm
      rw [Nat.add_zero] at h0
      exact h0
    unfold rayTilesGo at h
    dsimp only at h
    refine ih (mi + 1) _ hsuf2 ?_ r h
    intro r2 h2
    cases ho : rayTilesOneMap cfg mi m origin dir maxT mask with
    | none =>
      rw [ho] at h2
      exact hbest r2 h2
    | some hit =>
      rw [ho] at h2
      have hhit : tileRefValid tms hit.1 := by
        unfold rayTilesOneMap at ho
        obtain ⟨hm, hx, hy, hs⟩ := rayTilesLoop_sound cfg mi m origin dir
          maxT _ mask _ _ _ _ 20000 _ _ _ _ 0 none hit ho
        exact ⟨m, hm ▸ hhead, hx, hy, hs⟩
      cases hb : best with
      | some bh =>
        rw [hb] at h2
        dsimp only at h2
        split_ifs at h2 with h3
        · exact hbest r2 (hb ▸ h2)
        · cases h2
          exact hhit
      | none =>
        rw [hb] at h2
        cases h2
        exact hhit

lemma raycastTilesInternal_sound (cfg : WorldConfig) (tms : List TileMap)
    (origin dir : Vec2) (maxT : ℚ) (mask : LayerMask)
    (r : TileRef × SweepHit × Option ColKey)
    (h : raycastTilesInternal cfg tms origin dir maxT mask = some r) :
    tileRefValid tms r.1 := by
  unfold raycastTilesInternal at h
  split_ifs at h with h1
  exact rayTilesGo_sound cfg origin dir maxT mask tms 0 tms none
    (fun k => by rw [Nat.zero_add]) (by intro r2 h2; cases h2) r h

lemma queryPointTiles_sound (cfg : WorldConfig) (tms : List TileMap)
    (p : Vec2) (mask : LayerMask) (tref : TileRef) (key : Option ColKey)
    (h : (BodyRef.tile tref, key) ∈ queryPointTiles cfg tms p mask) :
    tileRefValid tms tref := by
  unfold queryPointTiles at h
  rw [List.mem_flatten] at h
  obtain ⟨sub, hsub, hmem⟩ := h
  rw [List.mem_map] at hsub
  obtain ⟨pr, hpr, hsubeq⟩ := hsub
  subst hsubeq
  dsimp only at hmem
  have hget := List.mem_enum_iff_get?.mp hpr
  by_cases hal : allowsPair cfg mask pr.2.mask = true
  case neg =>
    rw [if_pos (by simp [hal])] at hmem
    exact absurd hmem (List.not_mem_nil _)
  rw [if_neg (by simp [hal])] at hmem
  split_ifs at hmem with hb hs
  all_goals try exact absurd hmem (List.not_mem_nil _)
  rw [List.mem_singleton] at hmem
  simp only [Prod.mk.injEq] at hmem
  obtain ⟨h1, h2⟩ := hmem
  injection h1 with h1
  subst h1
  exact ⟨pr.2, hget, hb.2.2.1, hb.2.2.2, hs⟩

lemma queryTilesRect_sound (cfg : WorldConfig) (tms : List TileMap)
    (mn mx : Vec2) (mask : LayerMask) (test : Vec2 → Vec2 → Bool)
    (tref : TileRef) (key : Option ColKey)
    (h : (BodyRef.tile tref, key) ∈ queryTilesRect cfg tms mn mx mask test) :
    tileRefValid tms tref := by
  unfold queryTilesRect at h
  rw [List.mem_flatten] at h
  obtain ⟨sub, hsub, hmem⟩ := h
  rw [List.mem_map] at hsub
  obtain ⟨pr, hpr, hsubeq⟩ := hsub
  subst hsubeq
  dsimp only at hmem
  have hget := List.mem_enum_iff_get?.mp hpr
  by_cases hal : allowsPair cfg mask pr.2.mask = true
  case neg =>
    rw [if_pos (by simp [hal])] at hmem
    exact absurd hmem (List.not_mem_nil _)
  rw [if_neg (by simp [hal])] at hmem
  rw [List.mem_flatten] at hmem
  obtain ⟨sub2, hsub2, hmem2⟩ := hmem
  rw [List.mem_map] at hsub2
  obtain ⟨c, _, hsub2eq⟩ := hsub2
  subst hsub2eq
  cases ht : tileAt pr.2 c.1 c.2 with
  | none =>
    rw [ht] at hmem2
    exact absurd hmem2 (List.not_mem_nil _)
  | some idx =>
    rw [ht] at hmem2
    dsimp only at hmem2
    split_ifs at hmem2 with hz htest
    all_goals try exact absurd hmem2 (List.not_mem_nil _)
    rw [List.mem_singleton] at hmem2
    simp only [Prod.mk.injEq] at hmem2
    obtain ⟨h1, h2⟩ := hmem2
    injection h1 with h1
    subst h1
    obtain ⟨hx, hy, hidx⟩ := tileAt_bounds pr.2 c.1 c.2 idx ht
    refine ⟨pr.2, hget, hx, hy, ?_⟩
    rw [← hidx]
    exact hz

lemma get?_eraseIdx {α : Type} :
    ∀ (l : List α) (k i : ℕ),
      (l.eraseIdx k).get? i = if i < k then l.get? i else l.get? (i + 1) := by
  intro l
  induction l with
  | nil =>
    intro k i
    simp [List.eraseIdx]
  | cons a rest ih =>
    intro k i
    cases k with
    | zero => simp [List.eraseIdx]
    | succ k2 =>
      cases i with
      | zero => simp [List.eraseIdx]
      | succ i2 =>
        show (rest.eraseIdx k2).get? i2 = _
        rw [ih k2 i2]
        by_cases hlt : i2 < k2
        · rw [if_pos hlt, if_pos (by omega)]
          rfl
        · rw [if_neg hlt, if_neg (by omega)]
          rfl

lemma processPair_tiles (cfg : WorldConfig) (entries : List Entry)
    (tms : List TileMap) (a b : ℕ) (ev : Event)
    (h : processPair cfg entries a b = some ev) : eventTileRefsOk tms ev := by
  intro tref htref
  exfalso
  rw [processPair_eq] at h
  by_cases h1 : allowsPair cfg (entryAt entries a).desc.mask
      (entryAt entries b).desc.mask = true
  case neg => rw [if_neg h1] at h; cases h
  rw [if_pos h1] at h
  have hov_case : ∀ hh :
      (if cfg.enable_overlap_events then
        (overlapPairIdx entries a b).map (mkOverlapEvent entries a b)
      else none) = some ev, False := by
    intro hh
    by_cases h3 : cfg.enable_overlap_events = true
    · rw [if_pos h3] at hh
      cases hov : overlapPairIdx entries a b with
      | some o =>
        rw [hov, Option.map_some'] at hh
        cases hh
        unfold mkOverlapEvent at htref
        rcases htref with he | he <;> cases he
      | none => rw [hov] at hh; cases hh
    · rw [if_neg h3] at hh; cases hh
  by_cases h2 : ((entryAt entries a).motion.vel -
      (entryAt entries b).motion.vel).lengthSquared > dynEps ∧
      cfg.enable_sweep_events = true
  · rw [if_pos h2] at h
    cases hsw : sweepPairIdx cfg entries a b with
    | some s0 =>
      rw [hsw] at h
      cases h
      unfold mkSweepEvent at htref
      rcases htref with he | he <;> cases he
    | none =>
      rw [hsw] at h
      exact hov_case h
  · rw [if_neg h2] at h
    exact hov_case h

lemma phase1_tiles (cfg : WorldConfig) (entries : List Entry) (g : Grid)
    (tms : List TileMap) (ev0 : List Event) (x : Event)
    (h : x ∈ (phase1 cfg entries g ev0).events) :
    x ∈ ev0 ∨ eventTileRefsOk tms x := by
  obtain ⟨pr, _, hev⟩ := phase1_decomposition cfg entries g ev0
  rw [hev] at h
  rcases List.mem_append.mp h with hl | hr
  · exact Or.inl hl
  · obtain ⟨p, _, hp⟩ := List.mem_filterMap.mp hr
    exact Or.inr (processPair_tiles cfg entries tms p.1 p.2 x hp)

lemma phase2OverlapEvent_tiles (cfg : WorldConfig)
    (tms : List TileMap) (i : ℕ) (e : Entry) (he : Vec2) (ev : Event)
    (h : phase2OverlapEvent cfg tms i e he = some ev) :
    eventTileRefsOk tms ev := by
  intro tref htref
  unfold phase2OverlapEvent at h
  obtain ⟨pr, hprmem, hpr⟩ := List.exists_of_findSome?_eq_some h
  dsimp only at hpr
  have hget := List.mem_enum_iff_get?.mp hprmem
  by_cases hal : allowsPair cfg e.desc.mask pr.2.mask = true
  case neg =>
    rw [if_pos (by simp [hal])] at hpr
    cases hpr
  rw [if_neg (by simp [hal])] at hpr
  cases ho : anyTileOverlapAt pr.1 pr.2 e.desc.center he with
  | none => rw [ho] at hpr; cases hpr
  | some tref0 =>
    rw [ho] at hpr
    dsimp only at hpr
    cases hpr
    obtain ⟨hmap, hx, hy, hs⟩ := anyTileOverlapAt_sound pr.1 pr.2
      e.desc.center he tref0 ho
    rcases htref with he2 | he2
    · cases he2
    · have : tref0 = tref := by
        injection he2 with he2
      subst this
      exact ⟨pr.2, hmap ▸ hget, hx, hy, hs⟩

lemma phase2Entry_tiles (cfg : WorldConfig) (tms : List TileMap)
    (events : List Event) (i : ℕ) (e : Entry) (x : Event)
    (h : x ∈ phase2Entry cfg tms events i e) :
    x ∈ events ∨ eventTileRefsOk tms x := by
  unfold phase2Entry at h
  dsimp only at h
  by_cases hcond : e.motion.vel.lengthSquared > dynEps ∧
      cfg.enable_sweep_events = true
  · rw [if_pos hcond] at h
    cases hsst : sweepShapeTiles cfg tms e.desc.center
        (halfExtentsOfKind e.desc.kind) e.motion.vel e.desc.mask with
    | some r =>
      rw [hsst] at h
      dsimp only at h
      rcases mem_pushEvent events _ cfg.max_events x h with hl | hr
      · exact Or.inl hl
      · refine Or.inr ?_
        intro tref htref
        rw [hr] at htref
        have hval := sweepShapeTiles_sound cfg tms e.desc.center
          (halfExtentsOfKind e.desc.kind) e.motion.vel e.desc.mask r hsst
        rcases htref with he2 | he2
        · cases he2
        · have : r.1 = tref := by
            injection he2 with he2
          exact this ▸ hval
    | none =>
      rw [hsst] at h
      dsimp only at h
      split_ifs at h with ho
      · cases hov : phase2OverlapEvent cfg tms i e
            (halfExtentsOfKind e.desc.kind) with
        | some ev =>
          rw [hov] at h
          rcases mem_pushEvent events ev cfg.max_events x h with hl | hr
          · exact Or.inl hl
          · exact Or.inr (hr ▸ phase2OverlapEvent_tiles cfg tms i e _ ev hov)
        | none =>
          rw [hov] at h
          exact Or.inl h
      · exact Or.inl h
  · rw [if_neg hcond] at h
    dsimp only at h
    split_ifs at h with ho
    · cases hov : phase2OverlapEvent cfg tms i e
          (halfExtentsOfKind e.desc.kind) with
      | some ev =>
        rw [hov] at h
        rcases mem_pushEvent events ev cfg.max_events x h with hl | hr
        · exact Or.inl hl
        · exact Or.inr (hr ▸ phase2OverlapEvent_tiles cfg tms i e _ ev hov)
      | none =>
        rw [hov] at h
        exact Or.inl h
    · exact Or.inl h

lemma phase2_fold_tiles (cfg : WorldConfig) (tms : List TileMap)
    (ev0 : List Event) :
    ∀ (l : List (ℕ × Entry)) (st : List Event × Bool),
      (∀ y ∈ st.1, y ∈ ev0 ∨ eventTileRefsOk tms y) →
      ∀ x ∈ (l.foldl
        (fun (st : List Event × Bool) pr =>
          if st.2 then st
          else
            let ev2 := phase2Entry cfg tms st.1 pr.1 pr.2
            (ev2, cfg.max_events ≤ ev2.length)) st).1,
        x ∈ ev0 ∨ eventTileRefsOk tms x := by
  intro l
  induction l with
  | nil => intro st hst x hx; exact hst x hx
  | cons p rest ih =>
    intro st hst x hx
    rw [List.foldl_cons] at hx
    refine ih _ ?_ x hx
    intro y hy
    dsimp only at hy
    by_cases hb : st.2 = true
    · rw [if_pos hb] at hy
      exact hst y hy
    · rw [if_neg hb] at hy
      dsimp only at hy
      rcases phase2Entry_tiles cfg tms st.1 p.1 p.2 y hy with hl | hr
      · exact hst y hl
      · exact Or.inr hr

lemma phase2_tiles (cfg : WorldConfig) (tms : List TileMap)
    (entries : List Entry) (ev0 : List Event) (x : Event)
    (h : x ∈ phase2 cfg tms entries ev0) :
    x ∈ ev0 ∨ eventTileRefsOk tms x := by
  unfold phase2 at h
  exact phase2_fold_tiles cfg tms ev0 entries.enum (ev0, false)
    (fun y hy => Or.inl hy) x h

lemma generateEvents_tiles (w : World) (x : Event)
    (h : x ∈ (generateEvents w).events) :
    x ∈ w.events ∨ eventTileRefsOk w.tilemaps x := by
  unfold generateEvents at h
  dsimp only at h
  split_ifs at h with h1 h2
  · exact phase1_tiles w.cfg w.entries w.grid w.tilemaps w.events x h
  · rcases phase2_tiles w.cfg w.tilemaps w.entries _ x h with hl | hr
    · exact phase1_tiles w.cfg w.entries w.grid w.tilemaps w.events x hl
    · exact Or.inr hr
  · exact phase1_tiles w.cfg w.entries w.grid w.tilemaps w.events x h

/-- C4: `attach_tilemap` returns the index of the newly pushed map as a
valid handle; `detach_tilemap` removes exactly the selected slot
(`Vec::remove` keeps earlier slots and shifts later slots down by one);
and every tile hit of `raycast_tiles`, `raycast_all`, `query_point_all`,
`query_aabb_all`, `query_circle_all` and every tile reference of a fresh
`generate_events` event is backed by a map present in the current
tilemap list, with the referenced cell solid in that map — hence a
detached map, being absent from the list, can no longer produce hits,
while the remaining maps still can. -/
theorem claim4_detach_attach :
    (∀ (w : World) (m : TileMap),
      (attachTilemap w m).2 = w.tilemaps.length ∧
      (attachTilemap w m).1.tilemaps.get? (attachTilemap w m).2 = some m) ∧
    (∀ (w : World) (hm : TileMapRef), hm < w.tilemaps.length →
      ∀ i : ℕ,
        (detachTilemap w hm).tilemaps.get? i =
          if i < hm then w.tilemaps.get? i else w.tilemaps.get? (i + 1)) ∧
    (∀ (w : World) (origin dir : Vec2) (maxT : ℚ) (mask : LayerMask)
      (r : TileRef × SweepHit × Option ColKey),
      raycastTiles w origin dir maxT mask = some r →
        tileRefValid w.tilemaps r.1) ∧
    (∀ (w : World) (origin dir : Vec2) (mask : LayerMask) (maxT : ℚ)
      (r : BodyRef × SweepHit × Option ColKey) (tref : TileRef),
      raycastAll w origin dir mask maxT = some r → r.1 = BodyRef.tile tref →
        tileRefValid w.tilemaps tref) ∧
    (∀ (w : World) (p : Vec2) (mask : LayerMask) (tref : TileRef)
      (key : Option ColKey),
      (BodyRef.tile tref, key) ∈ queryPointAll w p mask →
        tileRefValid w.tilemaps tref) ∧
    (∀ (w : World) (center halfExtents : Vec2) (mask : LayerMask)
      (tref : TileRef) (key : Option ColKey),
      (BodyRef.tile tref, key) ∈ queryAabbAll w center halfExtents mask →
        tileRefValid w.tilemaps tref) ∧
    (∀ (w : World) (center : Vec2) (radius : ℚ) (mask : LayerMask)
      (tref : TileRef) (key : Option ColKey),
      (BodyRef.tile tref, key) ∈ queryCircleAll w center radius mask →
        tileRefValid w.tilemaps tref) ∧
    (∀ (w : World) (ev : Event), ev ∈ (generateEvents w).events →
      ev ∈ w.events ∨ eventTileRefsOk w.tilemaps ev) := by
  refine ⟨?_, ?_, ?_, ?_, ?_, ?_, ?_, ?_⟩
  · intro w m
    exact ⟨rfl, List.get?_concat_length w.tilemaps m⟩
  · intro w hm hlt i
    unfold detachTilemap
    rw [if_pos hlt]
    exact get?_eraseIdx w.tilemaps hm i
  · intro w origin dir maxT mask r h
    exact raycastTilesInternal_sound w.cfg w.tilemaps origin dir maxT mask r h
  · intro w origin dir mask maxT r tref h hr1
    unfold raycastAll at h
    dsimp only at h
    cases hti : raycastTilesInternal w.cfg w.tilemaps origin dir maxT mask with
    | none =>
      rw [hti] at h
      cases hrc : raycast w origin dir mask maxT with
      | none => rw [hrc] at h; cases h
      | some r0 =>
        rw [hrc] at h
        cases h
        cases hr1
    | some rt =>
      rw [hti] at h
      have hval : tileRefValid w.tilemaps rt.1 :=
        raycastTilesInternal_sound w.cfg w.tilemaps origin dir maxT mask rt hti
      cases hrc : raycast w origin dir mask maxT with
      | none =>
        rw [hrc] at h
        cases h
        injection hr1 with hr1
        exact hr1 ▸ hval
      | some r0 =>
        rw [hrc] at h
        dsimp only at h
        split_ifs at h with hcmp
        · cases h
          cases hr1
        · cases h
          injection hr1 with hr1
          exact hr1 ▸ hval
  · intro w p mask tref key h
    unfold queryPointAll at h
    rcases List.mem_append.mp h with hl | hr
    · rw [List.mem_map] at hl
      obtain ⟨q, _, hq⟩ := hl
      simp only [Prod.mk.injEq] at hq
      cases hq.1
    · exact queryPointTiles_sound w.cfg w.tilemaps p mask tref key hr
  · intro w center halfExtents mask tref key h
    unfold queryAabbAll at h
    rcases List.mem_append.mp h with hl | hr
    · rw [List.mem_map] at hl
      obtain ⟨q, _, hq⟩ := hl
      simp only [Prod.mk.injEq] at hq
      cases hq.1
    · exact queryTilesRect_sound w.cfg w.tilemaps _ _ mask _ tref key hr
  · intro w center radius mask tref key h
    unfold queryCircleAll at h
    rcases List.mem_append.mp h with hl | hr
    · rw [List.mem_map] at hl
      obtain ⟨q, _, hq⟩ := hl
      simp only [Prod.mk.injEq] at hq
      cases hq.1
    · exact queryTilesRect_sound w.cfg w.tilemaps _ _ mask _ tref key hr
  · intro w ev h
    exact generateEvents_tiles w ev h

/-- C4 witness: detaching slot 0 of the two-map example leaves the
origin map as the new slot 0, and a concrete point query against the
detached world hits it, backed by the current tilemap list. -/
theorem claim4_witness :
    (detachTilemap claim4exWorld 0).tilemaps.get? 0 = some claim4exMapB ∧
    tileRefValid (detachTilemap claim4exWorld 0).tilemaps ⟨0, 0, 0⟩ := by
  constructor
  · have h := claim4_detach_attach.2.1 claim4exWorld 0 (by decide) 0
    rw [h]
    with_unfolding_all decide
  · have hr : (BodyRef.tile ⟨0, 0, 0⟩, some 8) ∈
        queryPointAll (detachTilemap claim4exWorld 0) ⟨1/2, 1/2⟩ exMask12 := by
      with_unfolding_all decide
    exact claim4_detach_attach.2.2.2.2.1 (detachTilemap claim4exWorld 0)
      ⟨1/2, 1/2⟩ exMask12 ⟨0, 0, 0⟩ (some 8) hr

/-- C7: collider raycast is not monotone in `max_t`.  On the example
frame, with `max_t = 1` the DDA stops before reaching the negative-radius
circle's grid cells and returns the filler hit with `toi = 9/10`; with
`max_t = 3/2` it reaches cell `(2,1)` at `t_curr = 11/10`, tests the
circle there, and returns its hit with `toi = 1/2 ≠ 9/10` — both calls
return hits, with different `toi`, although `1 ≤ 3/2`. -/
theorem claim7_raycast_not_monotone :
    (1 : ℚ) ≤ 3/2 ∧
    (raycast claim7exWorld ⟨-7/5, -23/10⟩ ⟨4, 3⟩ exMask11 1).map
        (fun r => r.2.1.toi) = some (9/10) ∧
    (raycast claim7exWorld ⟨-7/5, -23/10⟩ ⟨4, 3⟩ exMask11 (3/2)).map
        (fun r => r.2.1.toi) = some (1/2) ∧
    ¬ ((9 : ℚ)/10 = 1/2) := by
  refine ⟨by norm_num, ?_, ?_, by norm_num⟩
  · with_unfolding_all decide
  · with_unfolding_all decide
